import Mathlib

/-!
# Configuration resolution of `go.uber.org/fx/core/config`

A shallow embedding of `core/config/static_provider.go`,
`core/config/provider_group.go` and `service/options.go`, followed by the
properties of the resolution algorithm, of scoping, of group construction, of
change callbacks and of the service options.

Go strings are `String`, a Go `map[string]interface{}` is an association
list read with `List.lookup` (a `nil` map is `none`), a slice of providers is
a `List`, and the `ConfigurationProvider` interface is the inductive type of
its implementations.
-/

namespace Fx

/-! ## Data model -/

/-- The dynamically typed payload `interface{}` of a configuration entry. A map
payload is `none` for the `nil` map and `some entries` otherwise. -/
inductive Value where
  | nil
  | bool (b : Bool)
  | int (i : Int)
  | str (s : String)
  | map (m : Option (List (String × Value)))

/-- The Go type `map[string]interface{}`: `none` is the `nil` map. -/
abbrev GoMap := Option (List (String × Value))

/-- Map indexing `val, found := m[key]`: the entry and `true`, or the zero value
`nil` and `false` when the key is absent (also for the `nil` map). -/
def GoMap.index (m : GoMap) (key : String) : Value × Bool :=
  match m with
  | none => (Value.nil, false)
  | some entries =>
    match entries.lookup key with
    | some v => (v, true)
    | none => (Value.nil, false)

/-- The keys of a map. -/
def GoMap.keys (m : GoMap) : List String :=
  match m with
  | none => []
  | some entries => entries.map Prod.fst

/-- Modelled from the spec: the type tag `valueType` of `value.go`, which is not
part of the sources at hand; "a tag describing the payload's shape, e.g.
scalar/map/etc., derived from the raw value". -/
inductive ValueType where
  | Invalid
  | Bool
  | Integer
  | String
  | Dictionary
deriving DecidableEq, Repr

/-- Modelled from the spec: `GetValueType` of `value.go`, which is not part of the
sources at hand; the tag is derived from the shape of the raw value. -/
def GetValueType : Value → ValueType
  | .nil => .Invalid
  | .bool _ => .Bool
  | .int _ => .Integer
  | .str _ => .String
  | .map _ => .Dictionary

/-- Modelled from the spec: the record `ConfigurationValue` of `value.go`, which is
not part of the sources at hand; its attributes are `root`, `key`, `value`,
`found`, `isDefault` and `valueType`. The type of providers is a parameter
because providers and values refer to each other. -/
structure ConfigurationValue (P : Type) where
  root : P
  key : String
  value : Value
  found : Bool
  isDefault : Bool
  valueType : ValueType

/-- Modelled from the spec: the function type `ConfigurationChangeCallback`, whose
declaration is not part of the sources at hand. The code here only passes a
callback on, so a callback is given by its identity. -/
structure ConfigurationChangeCallback where
  id : Nat
deriving DecidableEq, Repr

/-- The interface `ConfigurationProvider`, as the sum of its implementations:
the three concrete types of the sources, and `backend` for every implementation
that lives elsewhere (environment, files, remote services, the generic scoped
decorator), given by what its five operations return. -/
inductive ConfigurationProvider where
  /-- The struct `staticProvider` with its field `data` (the lock carries no data). -/
  | staticProvider (data : GoMap)
  /-- The struct `scopedStaticProvider`: an embedded provider and a key head. -/
  | scopedStaticProvider (inner : ConfigurationProvider) (pfx : String)
  /-- The struct `providerGroup`: `name` and `providers`, index 0 first. -/
  | providerGroup (name : String) (providers : List ConfigurationProvider)
  /-- Any other implementation of the interface. -/
  | backend (name : String)
      (getValue : String → ConfigurationValue ConfigurationProvider)
      (scope : String → ConfigurationProvider)
      (register : String → ConfigurationChangeCallback → Option String)
      (unregister : String → Option String)

/-- The values this package returns. -/
abbrev CV := ConfigurationValue ConfigurationProvider

/-- Modelled from the spec: the constructor `NewConfigurationValue(provider, key,
value, found, t, timestamp)` of `value.go`, which is not part of the sources at
hand. The provider becomes the root; the value is real backend data or an
absence, never an absence-filled default, since no default is passed in. -/
def NewConfigurationValue (provider : ConfigurationProvider) (key : String) (value : Value)
    (found : Bool) (t : ValueType) (_timestamp : Option Nat) : CV :=
  { root := provider, key := key, value := value, found := found, isDefault := false,
    valueType := t }

/-- Modelled from the spec: the accessor `HasValue()` of `value.go`, which is not
part of the sources at hand; the spec reads `HasValue() && !IsDefault()` as
`found && !isDefault`. -/
def ConfigurationValue.HasValue (cv : CV) : Bool := cv.found

/-- Modelled from the spec: the accessor `IsDefault()` of `value.go`, which is not
part of the sources at hand. -/
def ConfigurationValue.IsDefault (cv : CV) : Bool := cv.isDefault

/-- The test `val.HasValue() && !val.IsDefault()` of `providerGroup.GetValue`. -/
def ConfigurationValue.accepted (cv : CV) : Bool := cv.HasValue && !cv.IsDefault

/-! ## `static_provider.go` -/

/-- The constructor `NewStaticProvider(data)`. -/
def NewStaticProvider (data : GoMap) : ConfigurationProvider :=
  ConfigurationProvider.staticProvider data

/-- The method `(*staticProvider).Name`. -/
def staticProvider.Name (_data : GoMap) : String := "static"

/-- The method `(*staticProvider).GetValue`; the read lock has no effect on the
result of a single call. -/
def staticProvider.GetValue (data : GoMap) (key : String) : CV :=
  let s := ConfigurationProvider.staticProvider data
  if key = "" then
    NewConfigurationValue s key (Value.map data) true (GetValueType (Value.map data)) none
  else
    let r := GoMap.index data key
    NewConfigurationValue s key r.1 r.2 (GetValueType r.1) none

/-- The function `newScopedStaticProvider(s, prefix)`; its first argument is a
`*staticProvider`, given by its table. -/
def newScopedStaticProvider (s : GoMap) (pfx : String) : ConfigurationProvider :=
  ConfigurationProvider.scopedStaticProvider (ConfigurationProvider.staticProvider s) pfx

/-- The method `(*staticProvider).Scope`. -/
def staticProvider.Scope (data : GoMap) (pfx : String) : ConfigurationProvider :=
  newScopedStaticProvider data pfx

/-- The key rewriting of `scopedStaticProvider.GetValue`:
`fmt.Sprintf("%s.%s", s.prefix, key)` when the head is not empty. -/
def scopedKey (pfx key : String) : String :=
  if pfx ≠ "" then pfx ++ "." ++ key else key

/-! ## `provider_group.go` -/

/-- The function `NewProviderGroup(name, providers...)`: starting from the `nil`
member list, every argument is put in front of the members gathered so far. -/
def NewProviderGroup (name : String) (providers : List ConfigurationProvider) :
    ConfigurationProvider :=
  ConfigurationProvider.providerGroup name
    (providers.foldl (fun members provider => [provider] ++ members) [])

/-- The method `providerGroup.WithProvider`, on the receiver with fields `name`
and `providers`. -/
def providerGroup.WithProvider (name : String) (providers : List ConfigurationProvider)
    (provider : ConfigurationProvider) : ConfigurationProvider :=
  ConfigurationProvider.providerGroup name ([provider] ++ providers)

/-- The method `providerGroup.Name`. -/
def providerGroup.Name (name : String) (_providers : List ConfigurationProvider) : String :=
  name

mutual
/-- The method `GetValue` of the interface, dispatched on the implementation:
`(*staticProvider).GetValue`, `(*scopedStaticProvider).GetValue` (rewrite the
key, then ask the embedded provider), `providerGroup.GetValue` (start from an
empty value, run the loop over the members, overwrite the root), and an outside
implementation. -/
def ConfigurationProvider.GetValue : ConfigurationProvider → String → CV
  | .staticProvider data, key => staticProvider.GetValue data key
  | .scopedStaticProvider inner pfx, key => inner.GetValue (scopedKey pfx key)
  | .providerGroup name providers, key =>
      let p := ConfigurationProvider.providerGroup name providers
      let cv := NewConfigurationValue p key Value.nil false (GetValueType Value.nil) none
      let cv := providerGroup.GetValue.loop providers key cv
      { cv with root := p }
  | .backend _ getValue _ _ _, key => getValue key
/-- The loop of `providerGroup.GetValue` over the members that are left: the
first accepted result replaces `cv` and ends the loop. -/
def providerGroup.GetValue.loop : List ConfigurationProvider → String → CV → CV
  | [], _, cv => cv
  | provider :: rest, key, cv =>
      let val := provider.GetValue key
      if val.HasValue && !val.IsDefault then val
      else providerGroup.GetValue.loop rest key cv
end

/-- The method `Name` of the interface; `scopedStaticProvider` has no method of
its own and answers with the one of its embedded provider. -/
def ConfigurationProvider.Name : ConfigurationProvider → String
  | .staticProvider data => staticProvider.Name data
  | .scopedStaticProvider inner _ => inner.Name
  | .providerGroup name providers => providerGroup.Name name providers
  | .backend name _ _ _ _ => name

/-- The method `Scope` of the interface. `scopedStaticProvider` declares only
`GetValue`, so its `Scope` is the promoted method of the embedded provider;
`providerGroup.Scope` wraps the group with `NewScopedProvider`, a function of
`scoped_provider.go` that is not part of the sources at hand and is taken as a
parameter. -/
def ConfigurationProvider.Scope
    (NewScopedProvider : String → ConfigurationProvider → ConfigurationProvider) :
    ConfigurationProvider → String → ConfigurationProvider
  | .staticProvider data, pfx => staticProvider.Scope data pfx
  | .scopedStaticProvider inner _, pfx => inner.Scope NewScopedProvider pfx
  | .providerGroup name providers, pfx =>
      NewScopedProvider pfx (ConfigurationProvider.providerGroup name providers)
  | .backend _ _ scope _ _, pfx => scope pfx

/-- The members of a provider: the field `providers` of a group, nothing for any
other implementation. -/
def ConfigurationProvider.members : ConfigurationProvider → List ConfigurationProvider
  | .providerGroup _ providers => providers
  | _ => []

/-- The incremental construction
`NewProviderGroup(name).WithProvider(p1). ... .WithProvider(pn)`: the left fold
of `providerGroup.WithProvider` over the arguments, from the group without
members; every step calls the method on the group built so far, the receiver
given by its name and its members. -/
def withProviders (name : String) (args : List ConfigurationProvider) :
    ConfigurationProvider :=
  args.foldl (fun group provider => providerGroup.WithProvider group.Name group.members provider)
    (NewProviderGroup name [])

/-! ## Change callbacks

A Go `error` is `none` for `nil` and `some message` otherwise. The calls of
`RegisterChangeCallback` and `UnregisterChangeCallback` that reach a provider
are recorded, in the order in which they are made, next to the error returned. -/

/-- A call of a change callback method on a provider. -/
inductive Event where
  | register (provider : ConfigurationProvider) (key : String)
      (callback : ConfigurationChangeCallback)
  | unregister (provider : ConfigurationProvider) (token : String)

/-- The method `(*staticProvider).RegisterChangeCallback`: the table after the
call and the error returned. -/
def staticProvider.RegisterChangeCallback (data : GoMap) (_key : String)
    (_callback : ConfigurationChangeCallback) : GoMap × Option String :=
  (data, none)

/-- The method `(*staticProvider).UnregisterChangeCallback`: the table after the
call and the error returned. -/
def staticProvider.UnregisterChangeCallback (data : GoMap) (_token : String) :
    GoMap × Option String :=
  (data, none)

mutual
/-- The method `RegisterChangeCallback` of the interface: the calls made, first
to last, and the error returned. `scopedStaticProvider` has no method of its
own, the call goes to its embedded provider with the key as it is;
`providerGroup.RegisterChangeCallback` runs the loop over its members. -/
def ConfigurationProvider.RegisterChangeCallback :
    ConfigurationProvider → String → ConfigurationChangeCallback → List Event × Option String
  | .staticProvider data, key, callback =>
      ([Event.register (ConfigurationProvider.staticProvider data) key callback],
        (staticProvider.RegisterChangeCallback data key callback).2)
  | .scopedStaticProvider inner _, key, callback => inner.RegisterChangeCallback key callback
  | .providerGroup name providers, key, callback =>
      let r := providerGroup.RegisterChangeCallback.loop providers key callback
      (Event.register (ConfigurationProvider.providerGroup name providers) key callback :: r.1,
        r.2)
  | .backend name getValue scope register unregister, key, callback =>
      ([Event.register (ConfigurationProvider.backend name getValue scope register unregister)
          key callback],
        register key callback)
/-- The loop of `providerGroup.RegisterChangeCallback` over the members that are
left: an error ends the loop and is returned, `nil` is returned at the end. -/
def providerGroup.RegisterChangeCallback.loop :
    List ConfigurationProvider → String → ConfigurationChangeCallback →
      List Event × Option String
  | [], _, _ => ([], none)
  | provider :: rest, key, callback =>
      let r := provider.RegisterChangeCallback key callback
      match r.2 with
      | some err => (r.1, some err)
      | none =>
        let rs := providerGroup.RegisterChangeCallback.loop rest key callback
        (r.1 ++ rs.1, rs.2)
end

mutual
/-- The method `UnregisterChangeCallback` of the interface: the calls made, first
to last, and the error returned. -/
def ConfigurationProvider.UnregisterChangeCallback :
    ConfigurationProvider → String → List Event × Option String
  | .staticProvider data, token =>
      ([Event.unregister (ConfigurationProvider.staticProvider data) token],
        (staticProvider.UnregisterChangeCallback data token).2)
  | .scopedStaticProvider inner _, token => inner.UnregisterChangeCallback token
  | .providerGroup name providers, token =>
      let r := providerGroup.UnregisterChangeCallback.loop providers token
      (Event.unregister (ConfigurationProvider.providerGroup name providers) token :: r.1, r.2)
  | .backend name getValue scope register unregister, token =>
      ([Event.unregister (ConfigurationProvider.backend name getValue scope register unregister)
          token],
        unregister token)
/-- The loop of `providerGroup.UnregisterChangeCallback` over the members that are
left. -/
def providerGroup.UnregisterChangeCallback.loop :
    List ConfigurationProvider → String → List Event × Option String
  | [], _ => ([], none)
  | provider :: rest, token =>
      let r := provider.UnregisterChangeCallback token
      match r.2 with
      | some err => (r.1, some err)
      | none =>
        let rs := providerGroup.UnregisterChangeCallback.loop rest token
        (r.1 ++ rs.1, rs.2)
end

/-- The calls made when every provider of a list is asked in turn to register. -/
def registerCalls (providers : List ConfigurationProvider) (key : String)
    (callback : ConfigurationChangeCallback) : List Event :=
  providers.foldr (fun m calls => (m.RegisterChangeCallback key callback).1 ++ calls) []

/-- The calls made when every provider of a list is asked in turn to unregister. -/
def unregisterCalls (providers : List ConfigurationProvider) (token : String) : List Event :=
  providers.foldr (fun m calls => (m.UnregisterChangeCallback token).1 ++ calls) []

/-! ## `service/options.go` -/

/-- A value of the interface `ulog.Log`, of another package, given by its identity. -/
structure Log where
  id : Nat
deriving DecidableEq, Repr

/-- A value of the interface `tally.RootScope`, of another package, given by its
identity. -/
structure RootScope where
  id : Nat
deriving DecidableEq, Repr

/-- Modelled from the spec: a value of the interface `Observer` (the lifecycle
observer), whose declaration is not part of the sources at hand, given by its
identity. -/
structure Observer where
  id : Nat
deriving DecidableEq, Repr

/-- Modelled from the spec: the struct `serviceCore`, whose declaration is not part
of the sources at hand and which the spec leaves open; the one field is the one
that `WithObserver` assigns, and `none` is the `nil` interface. -/
structure serviceCore where
  observer : Option Observer

/-- Modelled from the spec: the struct `host` (the service host object), whose
declaration is not part of the sources at hand and which the spec leaves open;
the fields are those that `options.go` assigns, namely `configProvider`, `log`,
`scope`, `observer` and the `observer` of `serviceCore`, and `none` is the `nil`
interface. -/
structure host where
  serviceCore : serviceCore
  configProvider : Option ConfigurationProvider
  log : Option Log
  scope : Option RootScope
  observer : Option Observer

/-- Modelled from the spec: a value of the interface `Host`, whose declaration is
not part of the sources at hand, by its dynamic type, which is all that the
options inspect: a pointer to a `host` with the struct it points to, the `nil`
pointer of type `*host`, or a value of any other dynamic type (the `nil`
interface included), given by the name of that type. -/
inductive Host where
  | own (h : host)
  | ownNil
  | other (typeName : String)

/-- What a call of an `Option` does: it returns an error (`none` for `nil`) and
leaves the host in some state, or it panics, the host being in the state
given. -/
inductive Outcome where
  | returned (svc : Host) (err : Option String)
  | panicked (svc : Host)

/-- The type `Option func(Host) error`. -/
abbrev ServiceOption := Host → Outcome

/-- The function `WithConfiguration`: the type assertion `svc.(*host)` has no second
result and panics on any other dynamic type, the assignment panics on the
`nil` pointer, and after the assignment `nil` is returned. -/
def WithConfiguration (config : Option ConfigurationProvider) : ServiceOption :=
  fun svc =>
    match svc with
    | Host.own svc2 => Outcome.returned (Host.own { svc2 with configProvider := config }) none
    | Host.ownNil => Outcome.panicked Host.ownNil
    | Host.other t => Outcome.panicked (Host.other t)

/-- The function `WithLogger`. -/
def WithLogger (log : Option Log) : ServiceOption :=
  fun svc =>
    match svc with
    | Host.own svc2 => Outcome.returned (Host.own { svc2 with log := log }) none
    | Host.ownNil => Outcome.panicked Host.ownNil
    | Host.other t => Outcome.panicked (Host.other t)

/-- The function `WithMetricsRootScope`. -/
def WithMetricsRootScope (scope : Option RootScope) : ServiceOption :=
  fun svc =>
    match svc with
    | Host.own svc2 => Outcome.returned (Host.own { svc2 with scope := scope }) none
    | Host.ownNil => Outcome.panicked Host.ownNil
    | Host.other t => Outcome.panicked (Host.other t)

/-- The function `WithObserver`: both `observer` fields are assigned. -/
def WithObserver (observer : Option Observer) : ServiceOption :=
  fun svc =>
    match svc with
    | Host.own service =>
        Outcome.returned
          (Host.own { service with
            observer := observer, serviceCore := { service.serviceCore with observer := observer } })
          none
    | Host.ownNil => Outcome.panicked Host.ownNil
    | Host.other t => Outcome.panicked (Host.other t)

/-! ## Slices of providers

`NewProviderGroup` and `WithProvider` build the member list with
`append([]ConfigurationProvider{provider}, members...)`. The lists above are
the contents of these slices; here the slices themselves are modelled, with
their backing arrays in a heap, to follow what `append` writes. -/

/-- A Go slice header of type `[]ConfigurationProvider`: the backing array (an
index into the heap), the length and the capacity. The `nil` slice has length
and capacity 0. -/
structure Slice where
  array : Nat
  len : Nat
  cap : Nat

/-- The heap of backing arrays; a cell holds an interface value, `none` for the
`nil` interface of a cell that was never written. -/
abbrev Heap := List (List (Option ConfigurationProvider))

/-- The elements of a slice: the first `len` cells of its backing array. -/
def Heap.read (h : Heap) (s : Slice) : List (Option ConfigurationProvider) :=
  (h[s.array]?.getD []).take s.len

/-- The composite literal `[]ConfigurationProvider{provider}`: a fresh array of
one cell, and the slice of length 1 and capacity 1 over it. -/
def sliceLiteral (h : Heap) (provider : ConfigurationProvider) : Heap × Slice :=
  (h ++ [[some provider]], { array := h.length, len := 1, cap := 1 })

/-- The builtin `append(s, xs...)`: when the capacity of `s` suffices the elements
are written into the backing array of `s` after its length; otherwise a fresh
array is allocated with the elements of `s`, then `xs`, then `extra` spare
cells (how many is up to the allocator). -/
def goAppend (extra : Nat) (h : Heap) (s : Slice) (xs : List (Option ConfigurationProvider)) :
    Heap × Slice :=
  if s.len + xs.length ≤ s.cap then
    (h.set s.array
        ((h[s.array]?.getD []).take s.len ++ xs ++
          (h[s.array]?.getD []).drop (s.len + xs.length)),
      { s with len := s.len + xs.length })
  else
    (h ++ [h.read s ++ xs ++ List.replicate extra none],
      { array := h.length, len := s.len + xs.length, cap := s.len + xs.length + extra })

/-- The struct `providerGroup` as it lies in memory: `name` and the slice header
`providers`. -/
structure providerGroupRef where
  name : String
  providers : Slice

/-- The group a `providerGroupRef` stands for in a heap: its name and the
elements of its slice that are providers. -/
def providerGroupRef.toProvider (h : Heap) (p : providerGroupRef) : ConfigurationProvider :=
  ConfigurationProvider.providerGroup p.name ((h.read p.providers).filterMap id)

/-- The method `providerGroup.WithProvider` on slices: the receiver is passed by
value, the literal slice is allocated, and the members of the receiver are
appended to it. Returns the heap after the call and the new group. -/
def providerGroupRef.WithProvider (extra : Nat) (h : Heap) (p : providerGroupRef)
    (provider : ConfigurationProvider) : Heap × providerGroupRef :=
  let lit := sliceLiteral h provider
  let r := goAppend extra lit.1 lit.2 (lit.1.read p.providers)
  (r.1, { name := p.name, providers := r.2 })

/-! ## Sample providers -/

/-- A backend outside this package that knows every key only as a default: its
results are not found, flagged as defaults, carry payload 0 and name a static
provider as their root. -/
def defaultsBackend : ConfigurationProvider :=
  ConfigurationProvider.backend "defaults"
    (fun key =>
      { root := ConfigurationProvider.staticProvider none, key := key, value := Value.int 0,
        found := false, isDefault := true, valueType := ValueType.Integer })
    (fun _ => ConfigurationProvider.staticProvider none)
    (fun _ _ => none)
    (fun _ => none)

/-- A backend outside this package that refuses every registration and every
unregistration, and has no value for any key. -/
def refusingBackend : ConfigurationProvider :=
  ConfigurationProvider.backend "remote"
    (fun key =>
      { root := ConfigurationProvider.staticProvider none, key := key, value := Value.nil,
        found := false, isDefault := false, valueType := ValueType.Invalid })
    (fun _ => ConfigurationProvider.staticProvider none)
    (fun _ _ => some "remote: registration refused")
    (fun _ => some "remote: unknown token")

/-- The table of the application data example. -/
def appData : GoMap :=
  some [("applicationID", Value.str "test123"), ("applicationOwner", Value.str "test456")]

/-- The table with the single entry `"x": 1`. -/
def tableX1 : GoMap := some [("x", Value.int 1)]

/-- The table with the single entry `"x": 2`. -/
def tableX2 : GoMap := some [("x", Value.int 2)]

/-- The table with the entries `"a.b.k": 1`, `"b.k": 2` and `"a.k": 3`. -/
def tableScoped : GoMap :=
  some [("a.b.k", Value.int 1), ("b.k", Value.int 2), ("a.k", Value.int 3)]

/-- The empty table, not `nil`. -/
def tableEmpty : GoMap := some []

/-- The table with the single entry `"x": 7`. -/
def tableX7 : GoMap := some [("x", Value.int 7)]

/-! ## Resolution in a group -/

theorem accepted_eq (cv : CV) : cv.accepted = (cv.HasValue && !cv.IsDefault) := rfl

theorem GetValue_providerGroup (name : String) (providers : List ConfigurationProvider)
    (key : String) :
    (ConfigurationProvider.providerGroup name providers).GetValue key =
      { providerGroup.GetValue.loop providers key
          (NewConfigurationValue (ConfigurationProvider.providerGroup name providers) key
            Value.nil false (GetValueType Value.nil) none) with
        root := ConfigurationProvider.providerGroup name providers } := by
  rw [ConfigurationProvider.GetValue]

theorem loop_nil (key : String) (cv : CV) : providerGroup.GetValue.loop [] key cv = cv := by
  rw [providerGroup.GetValue.loop]

theorem loop_cons (provider : ConfigurationProvider) (rest : List ConfigurationProvider)
    (key : String) (cv : CV) :
    providerGroup.GetValue.loop (provider :: rest) key cv =
      if (provider.GetValue key).accepted then provider.GetValue key
      else providerGroup.GetValue.loop rest key cv := by
  rw [providerGroup.GetValue.loop]
  rfl

theorem loop_skip (skipped rest : List ConfigurationProvider) (key : String) (cv : CV)
    (h : ∀ q ∈ skipped, (q.GetValue key).accepted = false) :
    providerGroup.GetValue.loop (skipped ++ rest) key cv =
      providerGroup.GetValue.loop rest key cv := by
  induction skipped with
  | nil => rfl
  | cons q qs ih =>
    have hq : (q.GetValue key).accepted = false := h q (List.mem_cons_self q qs)
    have hqs : ∀ r ∈ qs, (r.GetValue key).accepted = false :=
      fun r hr => h r (List.mem_cons_of_mem q hr)
    rw [List.cons_append, loop_cons, hq, ih hqs]
    rfl

theorem loop_hit (m : ConfigurationProvider) (rest : List ConfigurationProvider)
    (key : String) (cv : CV) (h : (m.GetValue key).accepted = true) :
    providerGroup.GetValue.loop (m :: rest) key cv = m.GetValue key := by
  rw [loop_cons, h]
  rfl

theorem loop_miss (members : List ConfigurationProvider) (key : String) (cv : CV)
    (h : ∀ q ∈ members, (q.GetValue key).accepted = false) :
    providerGroup.GetValue.loop members key cv = cv := by
  have := loop_skip members [] key cv h
  rw [List.append_nil, loop_nil] at this
  exact this

theorem GetValue_group_first (name : String) (skipped : List ConfigurationProvider)
    (m : ConfigurationProvider) (rest : List ConfigurationProvider) (key : String)
    (hskip : ∀ q ∈ skipped, (q.GetValue key).accepted = false)
    (hm : (m.GetValue key).accepted = true) :
    (ConfigurationProvider.providerGroup name (skipped ++ m :: rest)).GetValue key =
      { m.GetValue key with
        root := ConfigurationProvider.providerGroup name (skipped ++ m :: rest) } := by
  rw [GetValue_providerGroup, loop_skip skipped (m :: rest) key _ hskip, loop_hit m rest key _ hm]

theorem split_at_index {α : Type} (members : List α) (i : Nat)
    (hi : i < members.length) :
    members = members.take i ++ members.get ⟨i, hi⟩ :: members.drop (i + 1) := by
  induction members generalizing i with
  | nil => simp at hi
  | cons x xs ih =>
    cases i with
    | zero => simp
    | succ n =>
      have hn : n < xs.length := by simpa using hi
      have := ih n hn
      simp only [List.take_succ_cons, List.drop_succ_cons, List.cons_append, List.get_cons_succ]
      exact congrArg (List.cons x) this

theorem take_not_accepted (members : List ConfigurationProvider) (key : String) (i : Nat)
    (hfirst : ∀ (j : Nat) (hj : j < members.length), j < i →
      ((members.get ⟨j, hj⟩).GetValue key).accepted = false) :
    ∀ q ∈ members.take i, (q.GetValue key).accepted = false := by
  intro q hq
  obtain ⟨j, hj, rfl⟩ := List.getElem_of_mem hq
  have hlen : j < min i members.length := by simpa [List.length_take] using hj
  have hji : j < i := lt_of_lt_of_le hlen (min_le_left _ _)
  have hjm : j < members.length := lt_of_lt_of_le hlen (min_le_right _ _)
  have := hfirst j hjm hji
  simpa [List.getElem_take] using this

/-- C1: in a group, when some member answers the key with an accepted result
(`HasValue() && !IsDefault()`), the group returns the result of the member of
lowest index that does so, the same in every field except `root`, which is the
group; the members before it, whose results are defaults or misses, are passed
over, and the members after it have no influence: replacing them by any other
members gives the same answer. -/
theorem providerGroup_GetValue_first_accepted (name : String)
    (members : List ConfigurationProvider) (key : String) (i : Nat) (hi : i < members.length)
    (hacc : ((members.get ⟨i, hi⟩).GetValue key).accepted = true)
    (hfirst : ∀ (j : Nat) (hj : j < members.length), j < i →
      ((members.get ⟨j, hj⟩).GetValue key).accepted = false) :
    (ConfigurationProvider.providerGroup name members).GetValue key =
        { (members.get ⟨i, hi⟩).GetValue key with
          root := ConfigurationProvider.providerGroup name members } ∧
      ∀ later : List ConfigurationProvider,
        (ConfigurationProvider.providerGroup name
            (members.take i ++ members.get ⟨i, hi⟩ :: later)).GetValue key =
          { (members.get ⟨i, hi⟩).GetValue key with
            root := ConfigurationProvider.providerGroup name
              (members.take i ++ members.get ⟨i, hi⟩ :: later) } := by
  have hskip := take_not_accepted members key i hfirst
  refine ⟨?_, fun later => GetValue_group_first name _ _ later key hskip hacc⟩
  have h := GetValue_group_first name _ _ (members.drop (i + 1)) key hskip hacc
  rw [← split_at_index members i hi] at h
  exact h

/-- Witness of C1: in the group of a backend that has only a default for `"x"`
followed by a static provider with `"x": 7`, the static provider at index 1
answers, and the group is the root of the answer. -/
theorem providerGroup_GetValue_first_accepted_witness :
    (ConfigurationProvider.providerGroup "g"
        [defaultsBackend, NewStaticProvider tableX7]).GetValue "x" =
      { (NewStaticProvider tableX7).GetValue "x" with
        root := ConfigurationProvider.providerGroup "g"
          [defaultsBackend, NewStaticProvider tableX7] } :=
  (providerGroup_GetValue_first_accepted "g" [defaultsBackend, NewStaticProvider tableX7] "x" 1
    (by decide) (by decide)
    (by
      intro j hj hji
      have hj0 : j = 0 := by omega
      subst hj0
      rfl)).1

theorem GetValue_staticProvider (data : GoMap) (key : String) :
    (ConfigurationProvider.staticProvider data).GetValue key =
      staticProvider.GetValue data key := by
  rw [ConfigurationProvider.GetValue]

theorem GetValue_scopedStaticProvider (inner : ConfigurationProvider) (pfx key : String) :
    (ConfigurationProvider.scopedStaticProvider inner pfx).GetValue key =
      inner.GetValue (scopedKey pfx key) := by
  rw [ConfigurationProvider.GetValue]

theorem GetValue_group_miss (name : String) (members : List ConfigurationProvider)
    (key : String) (h : ∀ q ∈ members, (q.GetValue key).accepted = false) :
    (ConfigurationProvider.providerGroup name members).GetValue key =
      NewConfigurationValue (ConfigurationProvider.providerGroup name members) key Value.nil
        false (GetValueType Value.nil) none := by
  rw [GetValue_providerGroup, loop_miss members key _ h]
  rfl

theorem staticProvider_miss (data : GoMap) (key : String)
    (h : (staticProvider.GetValue data key).accepted = false) :
    staticProvider.GetValue data key =
      NewConfigurationValue (ConfigurationProvider.staticProvider data) key Value.nil false
        (GetValueType Value.nil) none := by
  unfold staticProvider.GetValue at h ⊢
  by_cases hk : key = ""
  · simp [hk, ConfigurationValue.accepted, ConfigurationValue.HasValue,
      ConfigurationValue.IsDefault, NewConfigurationValue] at h
  · simp only [hk, if_false] at h ⊢
    cases data with
    | none => rfl
    | some entries =>
      cases hl : entries.lookup key with
      | none => simp [GoMap.index, hl]
      | some v =>
        simp [GoMap.index, hl, ConfigurationValue.accepted, ConfigurationValue.HasValue,
          ConfigurationValue.IsDefault, NewConfigurationValue] at h

/-- Counterexample to C2: the group `"g"` whose only member is the static provider
over the `nil` table scoped to `"a"`. No member has an accepted result for
`"k"`, yet the group does not return the result of its last member with the
root overwritten: the member reports the key `"a.k"`, the group the key `"k"`. -/
theorem providerGroup_GetValue_miss_not_last_member :
    (∀ q ∈ [staticProvider.Scope none "a"], (q.GetValue "k").accepted = false) ∧
      [staticProvider.Scope none "a"].getLast? = some (staticProvider.Scope none "a") ∧
      (ConfigurationProvider.providerGroup "g" [staticProvider.Scope none "a"]).GetValue "k" ≠
        { (staticProvider.Scope none "a").GetValue "k" with
          root := ConfigurationProvider.providerGroup "g" [staticProvider.Scope none "a"] } := by
  refine ⟨?_, rfl, ?_⟩
  · intro q hq
    rw [List.mem_singleton] at hq
    subst hq
    rfl
  · intro h
    have hk := congrArg ConfigurationValue.key h
    exact absurd hk (by decide)

/-- C2, amended: when no member of a group has an accepted result for the key
(also when the group has no members), the group returns the empty value it
constructed before the loop, with key `K`, `nil` payload, `found = false` and
the group as root; no member result is returned. When the last member is a
static provider this is that member's result with the root overwritten. -/
theorem providerGroup_GetValue_miss (name : String) (members : List ConfigurationProvider)
    (key : String) (h : ∀ q ∈ members, (q.GetValue key).accepted = false) :
    (ConfigurationProvider.providerGroup name members).GetValue key =
        NewConfigurationValue (ConfigurationProvider.providerGroup name members) key Value.nil
          false (GetValueType Value.nil) none ∧
      ((ConfigurationProvider.providerGroup name members).GetValue key).key = key ∧
      ((ConfigurationProvider.providerGroup name members).GetValue key).value = Value.nil ∧
      ((ConfigurationProvider.providerGroup name members).GetValue key).found = false ∧
      ((ConfigurationProvider.providerGroup name members).GetValue key).root =
        ConfigurationProvider.providerGroup name members ∧
      (ConfigurationProvider.providerGroup name []).GetValue key =
        NewConfigurationValue (ConfigurationProvider.providerGroup name []) key Value.nil
          false (GetValueType Value.nil) none ∧
      ∀ data : GoMap, members.getLast? = some (NewStaticProvider data) →
        (ConfigurationProvider.providerGroup name members).GetValue key =
          { (NewStaticProvider data).GetValue key with
            root := ConfigurationProvider.providerGroup name members } := by
  have hnil : ∀ q ∈ ([] : List ConfigurationProvider), (q.GetValue key).accepted = false :=
    fun q hq => absurd hq (List.not_mem_nil q)
  have hmiss := GetValue_group_miss name members key h
  refine ⟨hmiss, ?_, ?_, ?_, ?_, GetValue_group_miss name [] key hnil, ?_⟩
  · rw [hmiss]
    rfl
  · rw [hmiss]
    rfl
  · rw [hmiss]
    rfl
  · rw [hmiss]
    rfl
  · intro data hlast
    have hmem : NewStaticProvider data ∈ members := List.mem_of_getLast?_eq_some hlast
    have hacc := h _ hmem
    unfold NewStaticProvider at hacc ⊢
    rw [GetValue_staticProvider] at hacc ⊢
    rw [staticProvider_miss data key hacc, hmiss]
    rfl

/-- Witness of C2 as amended: the group whose only member knows `"x"` as a default
with payload 0 answers `"x"` with the empty value, not with that default. -/
theorem providerGroup_GetValue_miss_witness :
    ((ConfigurationProvider.providerGroup "g" [defaultsBackend]).GetValue "x").key = "x" ∧
      ((ConfigurationProvider.providerGroup "g" [defaultsBackend]).GetValue "x").value =
        Value.nil ∧
      ((ConfigurationProvider.providerGroup "g" [defaultsBackend]).GetValue "x").found =
        false ∧
      ((ConfigurationProvider.providerGroup "g" [defaultsBackend]).GetValue "x").root =
        ConfigurationProvider.providerGroup "g" [defaultsBackend] :=
  ((providerGroup_GetValue_miss "g" [defaultsBackend] "x"
    (by
      intro q hq
      rw [List.mem_singleton] at hq
      subst hq
      rfl)).2).imp_right (fun r => ⟨r.1, r.2.1, r.2.2.1⟩)

/-! ## Construction of a group -/

theorem foldl_prepend (args members : List ConfigurationProvider) :
    args.foldl (fun members provider => [provider] ++ members) members =
      args.reverse ++ members := by
  induction args generalizing members with
  | nil => rfl
  | cons a rest ih =>
    rw [List.foldl_cons, ih, List.reverse_cons, List.append_assoc]

/-- C3: priority prepend law. `NewProviderGroup(name, p1, ..., pn)` is the group
with that name whose member list is the reverse of the argument list: the same
length, no member dropped or repeated, the last argument at index 0, and the
arguments `[A, B, C]` give the resolution order `[C, B, A]`. -/
theorem NewProviderGroup_members_reverse (name : String) (args : List ConfigurationProvider) :
    NewProviderGroup name args = ConfigurationProvider.providerGroup name args.reverse ∧
      (NewProviderGroup name args).members = args.reverse ∧
      (NewProviderGroup name args).members.length = args.length ∧
      (NewProviderGroup name args).members.head? = args.getLast? ∧
      (NewProviderGroup name args).Name = name ∧
      ∀ A B C : ConfigurationProvider,
        (NewProviderGroup name [A, B, C]).members = [C, B, A] := by
  have h : NewProviderGroup name args =
      ConfigurationProvider.providerGroup name args.reverse := by
    unfold NewProviderGroup
    rw [foldl_prepend, List.append_nil]
  refine ⟨h, ?_, ?_, ?_, ?_, ?_⟩
  · rw [h]; rfl
  · rw [h]; exact List.length_reverse args
  · rw [h]; exact List.head?_reverse args
  · rw [h]; rfl
  · intro A B C
    rfl

/-- C6: root invariant. For every group, the empty one included, and every key,
the root of the value the group returns is the group itself, whether a member
answered or none did, and whatever root the members put in their results. -/
theorem providerGroup_GetValue_root (name : String) (members : List ConfigurationProvider)
    (key : String) :
    ((ConfigurationProvider.providerGroup name members).GetValue key).root =
      ConfigurationProvider.providerGroup name members := by
  rw [GetValue_providerGroup]

/-! ## Static providers -/
theorem lookup_none_iff {β : Type} (entries : List (String × β)) (key : String) :
    entries.lookup key = none ↔ key ∉ entries.map Prod.fst := by
  induction entries with
  | nil => simp
  | cons e es ih =>
    obtain ⟨a, b⟩ := e
    by_cases h : key = a
    · subst h
      simp [List.lookup_cons]
    · have hb : (key == a) = false := by simpa using h
      simp [List.lookup_cons, hb, ih, h]

theorem lookup_of_mem_nodup {β : Type} (entries : List (String × β)) (key : String) (v : β)
    (hnd : (entries.map Prod.fst).Nodup) (hmem : (key, v) ∈ entries) :
    entries.lookup key = some v := by
  induction entries with
  | nil => simp at hmem
  | cons e es ih =>
    obtain ⟨a, b⟩ := e
    rw [List.map_cons, List.nodup_cons] at hnd
    rcases List.mem_cons.mp hmem with h | h
    · cases h
      simp [List.lookup_cons]
    · have hne : key ≠ a := by
        intro hka
        subst hka
        exact hnd.1 (List.mem_map.mpr ⟨(key, v), h, rfl⟩)
      have hb : (key == a) = false := by simpa using hne
      simp [List.lookup_cons, hb, ih hnd.2 h]

theorem mem_of_lookup {β : Type} (entries : List (String × β)) (key : String) (v : β)
    (h : entries.lookup key = some v) : (key, v) ∈ entries := by
  induction entries with
  | nil => simp at h
  | cons e es ih =>
    obtain ⟨a, b⟩ := e
    by_cases hk : key = a
    · subst hk
      simp [List.lookup_cons] at h
      simp [h]
    · have hb : (key == a) = false := by simpa using hk
      simp [List.lookup_cons, hb] at h
      exact List.mem_cons_of_mem _ (ih h)

theorem index_of_mem_keys (d : GoMap) (key : String) (h : key ∈ d.keys) :
    (d.index key).2 = true := by
  cases d with
  | none => simp [GoMap.keys] at h
  | some entries =>
    cases hl : entries.lookup key with
    | none => exact absurd h ((lookup_none_iff entries key).mp hl)
    | some v => simp [GoMap.index, hl]

theorem index_of_not_mem_keys (d : GoMap) (key : String) (h : key ∉ d.keys) :
    d.index key = (Value.nil, false) := by
  cases d with
  | none => rfl
  | some entries =>
    have hl : entries.lookup key = none := (lookup_none_iff entries key).mpr h
    simp [GoMap.index, hl]

theorem staticProvider_GetValue_nonempty (d : GoMap) (key : String) (hk : key ≠ "") :
    staticProvider.GetValue d key =
      NewConfigurationValue (ConfigurationProvider.staticProvider d) key (d.index key).1
        (d.index key).2 (GetValueType (d.index key).1) none := by
  unfold staticProvider.GetValue
  simp only [hk, if_false]

/-- C9: static lookup. `NewStaticProvider(d).GetValue(K)` is a total function of
the table and the key. For the empty key the result is found and its payload is
the whole table, for every table (empty, `nil`, with or without an entry under
the empty key). For a non-empty key in the table the result is found with
value `d[K]`, which is the entry stored under `K`; for a non-empty key that is
not in the table the result is not found and its value is `nil`. -/
theorem staticProvider_GetValue_lookup (d : GoMap) (K : String) :
    (K = "" → ((NewStaticProvider d).GetValue K).found = true ∧
        ((NewStaticProvider d).GetValue K).value = Value.map d) ∧
      (K ≠ "" → K ∈ d.keys → ((NewStaticProvider d).GetValue K).found = true ∧
        ((NewStaticProvider d).GetValue K).value = (d.index K).1) ∧
      (K ≠ "" → ∀ (entries : List (String × Value)) (v : Value), d = some entries →
        (entries.map Prod.fst).Nodup → (K, v) ∈ entries →
          ((NewStaticProvider d).GetValue K).found = true ∧
            ((NewStaticProvider d).GetValue K).value = v) ∧
      (K ≠ "" → K ∉ d.keys → ((NewStaticProvider d).GetValue K).found = false ∧
        ((NewStaticProvider d).GetValue K).value = Value.nil) := by
  unfold NewStaticProvider
  rw [GetValue_staticProvider]
  refine ⟨?_, ?_, ?_, ?_⟩
  · intro hK
    subst hK
    exact ⟨rfl, rfl⟩
  · intro hK hmem
    rw [staticProvider_GetValue_nonempty d K hK]
    exact ⟨index_of_mem_keys d K hmem, rfl⟩
  · intro hK entries v hd hnd hmem
    subst hd
    rw [staticProvider_GetValue_nonempty _ K hK]
    have hl := lookup_of_mem_nodup entries K v hnd hmem
    simp [GoMap.index, hl, NewConfigurationValue]
  · intro hK hmem
    rw [staticProvider_GetValue_nonempty d K hK, index_of_not_mem_keys d K hmem]
    exact ⟨rfl, rfl⟩

/-- Witness of C9: in the table with the entries `"applicationID": "test123"` and
`"applicationOwner": "test456"` the key `"applicationID"` is found with value `"test123"`, the key
`"missing"` is not found, and the empty key gives the whole table. -/
theorem staticProvider_GetValue_lookup_witness :
    (((NewStaticProvider appData).GetValue "applicationID").found = true ∧
        ((NewStaticProvider appData).GetValue "applicationID").value = Value.str "test123") ∧
      (((NewStaticProvider appData).GetValue "missing").found = false ∧
        ((NewStaticProvider appData).GetValue "missing").value = Value.nil) ∧
      (((NewStaticProvider appData).GetValue "").found = true ∧
        ((NewStaticProvider appData).GetValue "").value = Value.map appData) :=
  ⟨(staticProvider_GetValue_lookup appData "applicationID").2.2.1 (by decide) _ _ rfl
      (by decide) (List.mem_cons_self _ _),
    (staticProvider_GetValue_lookup appData "missing").2.2.2 (by decide) (by decide),
    (staticProvider_GetValue_lookup appData "").1 rfl⟩

/-! ## Scoping -/

theorem scopedKey_nonempty (p k : String) (hp : p ≠ "") : scopedKey p k = p ++ "." ++ k := by
  unfold scopedKey
  exact if_pos hp

theorem scopedKey_empty (k : String) : scopedKey "" k = k := rfl

theorem Scope_staticProvider
    (N : String → ConfigurationProvider → ConfigurationProvider) (d : GoMap) (p : String) :
    (NewStaticProvider d).Scope N p =
      ConfigurationProvider.scopedStaticProvider (ConfigurationProvider.staticProvider d) p := by
  unfold NewStaticProvider
  rw [ConfigurationProvider.Scope]
  rfl

theorem Scope_scopedStaticProvider
    (N : String → ConfigurationProvider → ConfigurationProvider)
    (inner : ConfigurationProvider) (p0 p : String) :
    (ConfigurationProvider.scopedStaticProvider inner p0).Scope N p = inner.Scope N p := by
  rw [ConfigurationProvider.Scope]

theorem scopedStaticProvider_GetValue_rewrite_aux
    (N : String → ConfigurationProvider → ConfigurationProvider) (d : GoMap) (p k : String)
    (hp : p ≠ "") :
    ((NewStaticProvider d).Scope N p).GetValue k =
      (NewStaticProvider d).GetValue (p ++ "." ++ k) := by
  rw [Scope_staticProvider, GetValue_scopedStaticProvider, scopedKey_nonempty p k hp]
  rfl

/-- C8: key rewriting of a scoped static provider. `S.Scope(p).GetValue(k)` is
`S.GetValue(p ++ "." ++ k)` when `p` is not empty, with one dot put between the
two and nothing escaped, and is `S.GetValue(k)` when `p` is empty. -/
theorem scopedStaticProvider_GetValue_rewrite
    (N : String → ConfigurationProvider → ConfigurationProvider) (d : GoMap) (p k : String) :
    (p ≠ "" → ((NewStaticProvider d).Scope N p).GetValue k =
        (NewStaticProvider d).GetValue (p ++ "." ++ k)) ∧
      ((NewStaticProvider d).Scope N "").GetValue k = (NewStaticProvider d).GetValue k := by
  refine ⟨?_, ?_⟩
  · intro hp
    rw [Scope_staticProvider, GetValue_scopedStaticProvider, scopedKey_nonempty p k hp]
    rfl
  · rw [Scope_staticProvider, GetValue_scopedStaticProvider, scopedKey_empty]
    rfl

/-- Witness of C8: the static provider over `"a.k": 3` scoped to `"a"` answers `"k"`
with what the provider itself answers for `"a.k"`. -/
theorem scopedStaticProvider_GetValue_rewrite_witness :
    ((NewStaticProvider tableScoped).Scope (fun _ q => q) "a").GetValue "k" =
      (NewStaticProvider tableScoped).GetValue ("a" ++ "." ++ "k") :=
  (scopedStaticProvider_GetValue_rewrite (fun _ q => q) tableScoped "a" "k").1 (by decide)

/-- C7, what the code does: `scopedStaticProvider` has no `Scope` of its own, so
scoping a scoped static provider scopes the static provider underneath and the
outer key head is lost. With the entries `"a.b.k": 1` and `"b.k": 2`,
`S.Scope("a").Scope("b").GetValue("k")` is `S.GetValue("b.k")`, with value 2,
and differs from `S.GetValue("a.b.k")`, whose value is 1. -/
theorem scopedStaticProvider_Scope_drops_outer
    (N : String → ConfigurationProvider → ConfigurationProvider) :
    (∀ (d : GoMap) (a b k : String),
        (((NewStaticProvider d).Scope N a).Scope N b).GetValue k =
          ((NewStaticProvider d).Scope N b).GetValue k) ∧
      ((((NewStaticProvider tableScoped).Scope N "a").Scope N "b").GetValue "k") =
        (NewStaticProvider tableScoped).GetValue "b.k" ∧
      ((((NewStaticProvider tableScoped).Scope N "a").Scope N "b").GetValue "k").value =
        Value.int 2 ∧
      ((NewStaticProvider tableScoped).GetValue "a.b.k").value = Value.int 1 ∧
      ((((NewStaticProvider tableScoped).Scope N "a").Scope N "b").GetValue "k") ≠
        (NewStaticProvider tableScoped).GetValue "a.b.k" := by
  have hgen : ∀ (d : GoMap) (a b k : String),
      (((NewStaticProvider d).Scope N a).Scope N b).GetValue k =
        ((NewStaticProvider d).Scope N b).GetValue k := by
    intro d a b k
    rw [Scope_staticProvider N d a, Scope_scopedStaticProvider]
    rfl
  have hb : (((NewStaticProvider tableScoped).Scope N "a").Scope N "b").GetValue "k" =
      (NewStaticProvider tableScoped).GetValue "b.k" := by
    rw [hgen, Scope_staticProvider, GetValue_scopedStaticProvider]
    rfl
  refine ⟨hgen, hb, ?_, rfl, ?_⟩
  · rw [hb]
    rfl
  · rw [hb]
    intro h
    have hk := congrArg ConfigurationValue.key h
    exact absurd hk (by decide)

/-! ## The key of a returned value -/

theorem staticProvider_GetValue_key (d : GoMap) (k : String) :
    (staticProvider.GetValue d k).key = k := by
  unfold staticProvider.GetValue
  by_cases hk : k = ""
  · simp [hk, NewConfigurationValue]
  · simp [hk, NewConfigurationValue]

theorem loop_key (members : List ConfigurationProvider) (k : String) (cv : CV)
    (hm : ∀ q ∈ members, (q.GetValue k).key = k) (hcv : cv.key = k) :
    (providerGroup.GetValue.loop members k cv).key = k := by
  induction members with
  | nil => rw [loop_nil]; exact hcv
  | cons q qs ih =>
    rw [loop_cons]
    by_cases hq : (q.GetValue k).accepted = true
    · rw [if_pos hq]
      exact hm q (List.mem_cons_self q qs)
    · rw [if_neg hq]
      exact ih (fun r hr => hm r (List.mem_cons_of_mem q hr))

/-- Counterexample to C10: the static provider over `"a.b.k": 1`, `"b.k": 2`,
`"a.k": 3` scoped to `"a"` answers the key `"k"` with a value whose key is the
rewritten `"a.k"`, not `"k"`; and the group with that scoped provider as its only
member returns this accepted value, so its answer to `"k"` has the key `"a.k"`
as well. -/
theorem returned_key_is_rewritten :
    ((staticProvider.Scope tableScoped "a").GetValue "k").key = "a.k" ∧
      ((staticProvider.Scope tableScoped "a").GetValue "k").key ≠ "k" ∧
      ((ConfigurationProvider.providerGroup "g"
          [staticProvider.Scope tableScoped "a"]).GetValue "k").key = "a.k" ∧
      ((ConfigurationProvider.providerGroup "g"
          [staticProvider.Scope tableScoped "a"]).GetValue "k").key ≠ "k" := by
  refine ⟨rfl, ?_, rfl, ?_⟩
  · decide
  · decide

/-- C10, amended: the key of a returned value is the key received by the provider
that built the value. For a static provider `S` the key of `S.GetValue(k)` is
`k`; the key of `S.Scope(p).GetValue(k)` is the rewritten key `p.k` when `p` is
not empty and `k` when `p` is empty. For a group, the key of `G.GetValue(k)` is
`k` when no member is accepted, is the key of the answering member otherwise,
and so is `k` whenever every member reports the requested key, as static
providers do. -/
theorem returned_key (N : String → ConfigurationProvider → ConfigurationProvider)
    (d : GoMap) (p k : String) (name : String) (members : List ConfigurationProvider) :
    ((NewStaticProvider d).GetValue k).key = k ∧
      (p ≠ "" → (((NewStaticProvider d).Scope N p).GetValue k).key = p ++ "." ++ k) ∧
      (((NewStaticProvider d).Scope N "").GetValue k).key = k ∧
      ((∀ q ∈ members, (q.GetValue k).accepted = false) →
        ((ConfigurationProvider.providerGroup name members).GetValue k).key = k) ∧
      (∀ (i : Nat) (hi : i < members.length),
        ((members.get ⟨i, hi⟩).GetValue k).accepted = true →
        (∀ (j : Nat) (hj : j < members.length), j < i →
          ((members.get ⟨j, hj⟩).GetValue k).accepted = false) →
        ((ConfigurationProvider.providerGroup name members).GetValue k).key =
          ((members.get ⟨i, hi⟩).GetValue k).key) ∧
      ((∀ q ∈ members, (q.GetValue k).key = k) →
        ((ConfigurationProvider.providerGroup name members).GetValue k).key = k) ∧
      ∀ tables : List GoMap,
        ((ConfigurationProvider.providerGroup name
          (tables.map NewStaticProvider)).GetValue k).key = k := by
  have hstatic : ∀ t : GoMap, ((NewStaticProvider t).GetValue k).key = k := by
    intro t
    unfold NewStaticProvider
    rw [GetValue_staticProvider]
    exact staticProvider_GetValue_key t k
  have hall : ∀ ms : List ConfigurationProvider, (∀ q ∈ ms, (q.GetValue k).key = k) →
      ((ConfigurationProvider.providerGroup name ms).GetValue k).key = k := by
    intro ms hms
    rw [GetValue_providerGroup]
    exact loop_key ms k _ hms rfl
  refine ⟨hstatic d, ?_, ?_, ?_, ?_, hall members, ?_⟩
  · intro hp
    rw [Scope_staticProvider, GetValue_scopedStaticProvider, scopedKey_nonempty p k hp,
      GetValue_staticProvider]
    exact staticProvider_GetValue_key d _
  · rw [Scope_staticProvider, GetValue_scopedStaticProvider, scopedKey_empty,
      GetValue_staticProvider]
    exact staticProvider_GetValue_key d _
  · intro hmiss
    rw [GetValue_group_miss name members k hmiss]
    rfl
  · intro i hi hacc hfirst
    have hskip := take_not_accepted members k i hfirst
    have h := GetValue_group_first name _ _ (members.drop (i + 1)) k hskip hacc
    rw [← split_at_index members i hi] at h
    rw [h]
  · intro tables
    apply hall
    intro q hq
    obtain ⟨t, _, rfl⟩ := List.mem_map.mp hq
    exact hstatic t

/-- Witness of C10 as amended: scoped to `"a"`, the key of the answer to `"k"` is
`"a.k"`; and a group of two static providers answers `"x"` with the key `"x"`. -/
theorem returned_key_witness :
    (((NewStaticProvider tableScoped).Scope (fun _ q => q) "a").GetValue "k").key =
        "a" ++ "." ++ "k" ∧
      ((ConfigurationProvider.providerGroup "g"
        [NewStaticProvider tableX2, NewStaticProvider tableX1]).GetValue "x").key = "x" :=
  ⟨(returned_key (fun _ q => q) tableScoped "a" "k" "g" []).2.1 (by decide),
    (returned_key (fun _ q => q) tableScoped "a" "x" "g"
      [NewStaticProvider tableX2, NewStaticProvider tableX1]).2.2.2.2.1 0 (by decide) rfl
      (fun j _ hj => absurd hj (Nat.not_lt_zero j))⟩

/-! ## Groups of static providers -/

theorem staticProvider_accepted_of_mem (d : GoMap) (K : String) (hK : K ≠ "")
    (hmem : K ∈ d.keys) : ((NewStaticProvider d).GetValue K).accepted = true := by
  unfold NewStaticProvider
  rw [GetValue_staticProvider, staticProvider_GetValue_nonempty d K hK]
  simp [ConfigurationValue.accepted, ConfigurationValue.HasValue, ConfigurationValue.IsDefault,
    NewConfigurationValue, index_of_mem_keys d K hmem]

theorem staticProvider_not_accepted_of_not_mem (d : GoMap) (K : String) (hK : K ≠ "")
    (hmem : K ∉ d.keys) : ((NewStaticProvider d).GetValue K).accepted = false := by
  unfold NewStaticProvider
  rw [GetValue_staticProvider, staticProvider_GetValue_nonempty d K hK,
    index_of_not_mem_keys d K hmem]
  rfl

theorem drop_not_mem_keys (tables : List GoMap) (K : String) (i : Nat)
    (hlast : ∀ (j : Nat) (hj : j < tables.length), i < j → K ∉ (tables.get ⟨j, hj⟩).keys) :
    ∀ t ∈ tables.drop (i + 1), K ∉ t.keys := by
  intro t ht
  obtain ⟨n, hn, rfl⟩ := List.getElem_of_mem ht
  have hlen : i + 1 + n < tables.length := by
    rw [List.length_drop] at hn
    omega
  have := hlast (i + 1 + n) hlen (by omega)
  simpa [List.getElem_drop] using this

/-- C4: later static providers override earlier ones. For tables `d1, ..., dn`
and a non-empty key `K`, the group built by `NewProviderGroup` from the static
providers of the tables, in this order, answers `K` with `found = true` and the
value `di[K]` of the table of largest index `i` that contains `K`, and with
`found = false` when no table contains `K`. -/
theorem NewProviderGroup_static_last_wins (name : String) (tables : List GoMap) (K : String)
    (hK : K ≠ "") :
    (∀ (i : Nat) (hi : i < tables.length), K ∈ (tables.get ⟨i, hi⟩).keys →
        (∀ (j : Nat) (hj : j < tables.length), i < j → K ∉ (tables.get ⟨j, hj⟩).keys) →
        ((NewProviderGroup name (tables.map NewStaticProvider)).GetValue K).found = true ∧
          ((NewProviderGroup name (tables.map NewStaticProvider)).GetValue K).value =
            ((tables.get ⟨i, hi⟩).index K).1) ∧
      ((∀ t ∈ tables, K ∉ t.keys) →
        ((NewProviderGroup name (tables.map NewStaticProvider)).GetValue K).found = false) := by
  have hgroup : NewProviderGroup name (tables.map NewStaticProvider) =
      ConfigurationProvider.providerGroup name (tables.map NewStaticProvider).reverse := by
    unfold NewProviderGroup
    rw [foldl_prepend, List.append_nil]
  refine ⟨?_, ?_⟩
  · intro i hi hmem hlast
    have hsplit := split_at_index tables i hi
    have hmembers : (tables.map NewStaticProvider).reverse =
        ((tables.drop (i + 1)).map NewStaticProvider).reverse ++
          NewStaticProvider (tables.get ⟨i, hi⟩) ::
            ((tables.take i).map NewStaticProvider).reverse := by
      have h1 : tables.map NewStaticProvider =
          (tables.take i).map NewStaticProvider ++
            NewStaticProvider (tables.get ⟨i, hi⟩) ::
              (tables.drop (i + 1)).map NewStaticProvider := by
        rw [← List.map_cons, ← List.map_append, ← hsplit]
      rw [h1, List.reverse_append, List.reverse_cons, List.append_assoc]
      rfl
    have hskip : ∀ q ∈ ((tables.drop (i + 1)).map NewStaticProvider).reverse,
        (q.GetValue K).accepted = false := by
      intro q hq
      rw [List.mem_reverse] at hq
      obtain ⟨t, ht, rfl⟩ := List.mem_map.mp hq
      exact staticProvider_not_accepted_of_not_mem t K hK
        (drop_not_mem_keys tables K i hlast t ht)
    have hacc := staticProvider_accepted_of_mem (tables.get ⟨i, hi⟩) K hK hmem
    rw [hgroup, hmembers, GetValue_group_first name _ _ _ K hskip hacc]
    have hval := (staticProvider_GetValue_lookup (tables.get ⟨i, hi⟩) K).2.1 hK hmem
    exact hval
  · intro hnone
    have hmiss : ∀ q ∈ (tables.map NewStaticProvider).reverse,
        (q.GetValue K).accepted = false := by
      intro q hq
      rw [List.mem_reverse] at hq
      obtain ⟨t, ht, rfl⟩ := List.mem_map.mp hq
      exact staticProvider_not_accepted_of_not_mem t K hK (hnone t ht)
    rw [hgroup, GetValue_group_miss name _ K hmiss]
    rfl

/-- Witness of C4: with `base` holding `"x": 1` and `override` holding `"x": 2`,
`NewProviderGroup("g", base, override).GetValue("x")` is found with value 2. -/
theorem NewProviderGroup_static_last_wins_witness :
    ((NewProviderGroup "g" [NewStaticProvider tableX1, NewStaticProvider tableX2]).GetValue
        "x").found = true ∧
      ((NewProviderGroup "g" [NewStaticProvider tableX1, NewStaticProvider tableX2]).GetValue
        "x").value = Value.int 2 :=
  (NewProviderGroup_static_last_wins "g" [tableX1, tableX2] "x" (by decide)).1 1 (by decide)
    (by decide) (fun j hj hij => absurd hj (by simp only [List.length]; omega))


/-! ## Slices: `WithProvider` leaves the receiver alone -/

theorem read_append_heap (h t : Heap) (s : Slice)
    (hvalid : s.len = 0 ∨ s.array < h.length) : Heap.read (h ++ t) s = h.read s := by
  unfold Heap.read
  rcases hvalid with h0 | hlt
  · rw [h0, List.take_zero, List.take_zero]
  · rw [List.getElem?_append_left hlt]

theorem read_set_other (h : Heap) (s : Slice) (i : Nat)
    (a : List (Option ConfigurationProvider)) (hne : s.array ≠ i) :
    Heap.read (h.set i a) s = h.read s := by
  unfold Heap.read
  rw [List.getElem?_set_ne (Ne.symm hne)]

theorem read_fresh (h : Heap) (a : List (Option ConfigurationProvider)) (k c : Nat) :
    Heap.read (h ++ [a]) { array := h.length, len := k, cap := c } = a.take k := by
  unfold Heap.read
  simp

theorem goAppend_literal (extra : Nat) (h : Heap) (provider : ConfigurationProvider)
    (xs : List (Option ConfigurationProvider)) :
    Heap.read (goAppend extra (sliceLiteral h provider).1 (sliceLiteral h provider).2 xs).1
        (goAppend extra (sliceLiteral h provider).1 (sliceLiteral h provider).2 xs).2 =
      some provider :: xs := by
  have hlit : Heap.read (sliceLiteral h provider).1 (sliceLiteral h provider).2 =
      [some provider] := by
    unfold sliceLiteral
    rw [read_fresh]
    rfl
  unfold goAppend
  split
  · rename_i hle
    have hlen : xs.length = 0 := by
      have h1 : (sliceLiteral h provider).2.len = 1 := rfl
      have h2 : (sliceLiteral h provider).2.cap = 1 := rfl
      omega
    have hxs : xs = [] := List.length_eq_zero.mp hlen
    subst hxs
    simp [sliceLiteral, Heap.read]
  · rw [read_fresh, hlit]
    have h1 : (sliceLiteral h provider).2.len = 1 := rfl
    rw [h1, Nat.add_comm]
    show List.take (xs.length + 1) (some provider :: (xs ++ List.replicate extra none)) =
      some provider :: xs
    rw [List.take_succ_cons, List.take_left]

theorem goAppend_literal_frame (extra : Nat) (h : Heap) (provider : ConfigurationProvider)
    (xs : List (Option ConfigurationProvider)) (s : Slice)
    (hvalid : s.len = 0 ∨ s.array < h.length) :
    Heap.read (goAppend extra (sliceLiteral h provider).1 (sliceLiteral h provider).2 xs).1 s =
      h.read s := by
  have hlit : Heap.read (sliceLiteral h provider).1 s = h.read s :=
    read_append_heap h _ s hvalid
  unfold goAppend
  split
  · rcases hvalid with h0 | hlt
    · simp [Heap.read, h0]
    · have hne : s.array ≠ (sliceLiteral h provider).2.array := by
        show s.array ≠ h.length
        omega
      rw [read_set_other _ s _ _ hne]
      exact hlit
  · have hvalid1 : s.len = 0 ∨ s.array < (sliceLiteral h provider).1.length := by
      rcases hvalid with h0 | hlt
      · exact Or.inl h0
      · right
        show s.array < (h ++ [[some provider]]).length
        rw [List.length_append]
        omega
    rw [read_append_heap _ _ s hvalid1]
    exact hlit

/-- C5: `WithProvider` does not change its receiver and prepends. For a group `G1`
whose member slice is empty or lies in the heap, `G2 = G1.WithProvider(p)` has
the name of `G1` and the members `p` followed by the members of `G1` in their
order; after the call the member slice of `G1` reads as before, so `G1` is the
same group and `G1.GetValue(K)` is the same for every key. -/
theorem WithProvider_prepends_and_preserves (extra : Nat) (h : Heap) (p : providerGroupRef)
    (provider : ConfigurationProvider)
    (hvalid : p.providers.len = 0 ∨ p.providers.array < h.length) :
    ((p.WithProvider extra h provider).2.toProvider (p.WithProvider extra h provider).1).Name =
        (p.toProvider h).Name ∧
      Heap.read (p.WithProvider extra h provider).1 (p.WithProvider extra h provider).2.providers =
        some provider :: h.read p.providers ∧
      (p.WithProvider extra h provider).2.toProvider (p.WithProvider extra h provider).1 =
        providerGroup.WithProvider p.name (p.toProvider h).members provider ∧
      ((p.WithProvider extra h provider).2.toProvider
          (p.WithProvider extra h provider).1).members =
        provider :: (p.toProvider h).members ∧
      Heap.read (p.WithProvider extra h provider).1 p.providers = h.read p.providers ∧
      p.toProvider (p.WithProvider extra h provider).1 = p.toProvider h ∧
      ∀ K : String, (p.toProvider (p.WithProvider extra h provider).1).GetValue K =
        (p.toProvider h).GetValue K := by
  have hlit : Heap.read (sliceLiteral h provider).1 p.providers = h.read p.providers :=
    read_append_heap h _ p.providers hvalid
  have hnew : Heap.read (p.WithProvider extra h provider).1
      (p.WithProvider extra h provider).2.providers = some provider :: h.read p.providers := by
    unfold providerGroupRef.WithProvider
    simp only []
    rw [goAppend_literal, hlit]
  have hold : Heap.read (p.WithProvider extra h provider).1 p.providers =
      h.read p.providers := by
    unfold providerGroupRef.WithProvider
    simp only []
    exact goAppend_literal_frame extra h provider _ p.providers hvalid
  have hsame : p.toProvider (p.WithProvider extra h provider).1 = p.toProvider h := by
    unfold providerGroupRef.toProvider
    rw [hold]
  have hg2 : (p.WithProvider extra h provider).2.toProvider
      (p.WithProvider extra h provider).1 =
        providerGroup.WithProvider p.name (p.toProvider h).members provider := by
    unfold providerGroupRef.toProvider
    rw [hnew]
    rfl
  refine ⟨?_, hnew, hg2, ?_, hold, hsame, ?_⟩
  · rw [hg2]
    rfl
  · rw [hg2]
    rfl
  · intro K
    rw [hsame]

/-- Witness of C5: a group with the one member `defaultsBackend`, whose slice is the
array at index 0 of the heap, gets the static provider of `"x": 7` in front. -/
theorem WithProvider_prepends_and_preserves_witness :
    ((({ name := "g", providers := { array := 0, len := 1, cap := 1 } } :
          providerGroupRef).WithProvider 0 [[some defaultsBackend]]
          (NewStaticProvider tableX7)).2.toProvider
        (({ name := "g", providers := { array := 0, len := 1, cap := 1 } } :
          providerGroupRef).WithProvider 0 [[some defaultsBackend]]
          (NewStaticProvider tableX7)).1).members =
      NewStaticProvider tableX7 ::
        (({ name := "g", providers := { array := 0, len := 1, cap := 1 } } :
          providerGroupRef).toProvider [[some defaultsBackend]]).members :=
  (WithProvider_prepends_and_preserves 0 [[some defaultsBackend]]
    { name := "g", providers := { array := 0, len := 1, cap := 1 } }
    (NewStaticProvider tableX7) (Or.inr (by decide))).2.2.2.1


/-! ## Change callbacks of a group -/

theorem Register_providerGroup (name : String) (providers : List ConfigurationProvider)
    (key : String) (callback : ConfigurationChangeCallback) :
    (ConfigurationProvider.providerGroup name providers).RegisterChangeCallback key callback =
      (Event.register (ConfigurationProvider.providerGroup name providers) key callback ::
          (providerGroup.RegisterChangeCallback.loop providers key callback).1,
        (providerGroup.RegisterChangeCallback.loop providers key callback).2) := by
  rw [ConfigurationProvider.RegisterChangeCallback]

theorem registerLoop_nil (key : String) (callback : ConfigurationChangeCallback) :
    providerGroup.RegisterChangeCallback.loop [] key callback = ([], none) := by
  rw [providerGroup.RegisterChangeCallback.loop]

theorem registerLoop_cons_ok (m : ConfigurationProvider) (rest : List ConfigurationProvider)
    (key : String) (callback : ConfigurationChangeCallback)
    (h : (m.RegisterChangeCallback key callback).2 = none) :
    providerGroup.RegisterChangeCallback.loop (m :: rest) key callback =
      ((m.RegisterChangeCallback key callback).1 ++
          (providerGroup.RegisterChangeCallback.loop rest key callback).1,
        (providerGroup.RegisterChangeCallback.loop rest key callback).2) := by
  rw [providerGroup.RegisterChangeCallback.loop]
  simp only [h]

theorem registerLoop_cons_err (m : ConfigurationProvider) (rest : List ConfigurationProvider)
    (key : String) (callback : ConfigurationChangeCallback) (err : String)
    (h : (m.RegisterChangeCallback key callback).2 = some err) :
    providerGroup.RegisterChangeCallback.loop (m :: rest) key callback =
      ((m.RegisterChangeCallback key callback).1, some err) := by
  rw [providerGroup.RegisterChangeCallback.loop]
  simp only [h]

theorem registerCalls_cons (m : ConfigurationProvider) (rest : List ConfigurationProvider)
    (key : String) (callback : ConfigurationChangeCallback) :
    registerCalls (m :: rest) key callback =
      (m.RegisterChangeCallback key callback).1 ++ registerCalls rest key callback := rfl

theorem registerLoop_all_ok (members : List ConfigurationProvider) (key : String)
    (callback : ConfigurationChangeCallback)
    (h : ∀ m ∈ members, (m.RegisterChangeCallback key callback).2 = none) :
    providerGroup.RegisterChangeCallback.loop members key callback =
      (registerCalls members key callback, none) := by
  induction members with
  | nil => exact registerLoop_nil key callback
  | cons m rest ih =>
    have hm := h m (List.mem_cons_self m rest)
    have hrest := ih (fun q hq => h q (List.mem_cons_of_mem m hq))
    rw [registerLoop_cons_ok m rest key callback hm, hrest, registerCalls_cons]

theorem registerLoop_first_err (before : List ConfigurationProvider) (m : ConfigurationProvider)
    (after : List ConfigurationProvider) (key : String) (callback : ConfigurationChangeCallback)
    (err : String)
    (hbefore : ∀ q ∈ before, (q.RegisterChangeCallback key callback).2 = none)
    (hm : (m.RegisterChangeCallback key callback).2 = some err) :
    providerGroup.RegisterChangeCallback.loop (before ++ m :: after) key callback =
      (registerCalls (before ++ [m]) key callback, some err) := by
  induction before with
  | nil =>
    rw [List.nil_append, List.nil_append, registerLoop_cons_err m after key callback err hm,
      registerCalls_cons]
    simp [registerCalls]
  | cons q qs ih =>
    have hq := hbefore q (List.mem_cons_self q qs)
    have hqs := ih (fun r hr => hbefore r (List.mem_cons_of_mem q hr))
    rw [List.cons_append, List.cons_append, registerLoop_cons_ok q _ key callback hq, hqs,
      registerCalls_cons]

theorem take_all_none {β : Type} (members : List ConfigurationProvider)
    (f : ConfigurationProvider → Option β) (i : Nat)
    (hfirst : ∀ (j : Nat) (hj : j < members.length), j < i → f (members.get ⟨j, hj⟩) = none) :
    ∀ q ∈ members.take i, f q = none := by
  intro q hq
  obtain ⟨j, hj, rfl⟩ := List.getElem_of_mem hq
  have hlen : j < min i members.length := by simpa [List.length_take] using hj
  have hji : j < i := lt_of_lt_of_le hlen (min_le_left _ _)
  have hjm : j < members.length := lt_of_lt_of_le hlen (min_le_right _ _)
  have := hfirst j hjm hji
  simpa [List.getElem_take] using this

theorem take_succ_eq {α : Type} (members : List α) (i : Nat) (hi : i < members.length) :
    members.take (i + 1) = members.take i ++ [members.get ⟨i, hi⟩] := by
  rw [List.take_succ]
  simp [List.getElem?_eq_getElem hi]

/-- C11: `RegisterChangeCallback` of a group is a fan-out that stops at the first
failure. The members are called in index order with the key and the callback
given. When every member returns `nil` the group returns `nil` and the calls
made are those of each member, once each, in order. When member `i` is the
first to fail, the group returns the error of that member unchanged, the calls
made are those of the members `0` to `i` in order (the members before `i`
succeeded and nothing is undone), and no member after `i` is called: the
result is the same for any members after `i`. -/
theorem providerGroup_RegisterChangeCallback_fanout (name : String)
    (members : List ConfigurationProvider) (key : String)
    (callback : ConfigurationChangeCallback) :
    ((∀ m ∈ members, (m.RegisterChangeCallback key callback).2 = none) →
        (ConfigurationProvider.providerGroup name members).RegisterChangeCallback key callback =
          (Event.register (ConfigurationProvider.providerGroup name members) key callback ::
            registerCalls members key callback, none)) ∧
      ∀ (i : Nat) (hi : i < members.length) (err : String),
        ((members.get ⟨i, hi⟩).RegisterChangeCallback key callback).2 = some err →
        (∀ (j : Nat) (hj : j < members.length), j < i →
          ((members.get ⟨j, hj⟩).RegisterChangeCallback key callback).2 = none) →
        (ConfigurationProvider.providerGroup name members).RegisterChangeCallback key callback =
            (Event.register (ConfigurationProvider.providerGroup name members) key callback ::
              registerCalls (members.take (i + 1)) key callback, some err) ∧
          ∀ later : List ConfigurationProvider,
            ((ConfigurationProvider.providerGroup name
                (members.take (i + 1) ++ later)).RegisterChangeCallback key callback).2 =
                some err ∧
              ((ConfigurationProvider.providerGroup name
                (members.take (i + 1) ++ later)).RegisterChangeCallback key callback).1.tail =
                registerCalls (members.take (i + 1)) key callback := by
  refine ⟨?_, ?_⟩
  · intro hall
    rw [Register_providerGroup, registerLoop_all_ok members key callback hall]
  · intro i hi err herr hfirst
    have hbefore := take_all_none members
      (fun m => (m.RegisterChangeCallback key callback).2) i hfirst
    have hloop : ∀ later : List ConfigurationProvider,
        providerGroup.RegisterChangeCallback.loop (members.take (i + 1) ++ later) key callback =
          (registerCalls (members.take (i + 1)) key callback, some err) := by
      intro later
      rw [take_succ_eq members i hi, List.append_assoc, List.singleton_append]
      exact registerLoop_first_err _ _ later key callback err hbefore herr
    refine ⟨?_, ?_⟩
    · have h := hloop (members.drop (i + 1))
      rw [List.take_append_drop] at h
      rw [Register_providerGroup, h]
    · intro later
      rw [Register_providerGroup, hloop later]
      exact ⟨rfl, rfl⟩

/-- Witness of C11: a group of a static provider, a backend that refuses the
registration, and another static provider. The first member is called, the
error of the second is returned, and the third is never called. -/
theorem providerGroup_RegisterChangeCallback_fanout_witness :
    (ConfigurationProvider.providerGroup "g"
        [NewStaticProvider tableX1, refusingBackend,
          NewStaticProvider tableX2]).RegisterChangeCallback "x" ⟨0⟩ =
      ([Event.register (ConfigurationProvider.providerGroup "g"
            [NewStaticProvider tableX1, refusingBackend, NewStaticProvider tableX2]) "x" ⟨0⟩,
          Event.register (NewStaticProvider tableX1) "x" ⟨0⟩,
          Event.register refusingBackend "x" ⟨0⟩],
        some "remote: registration refused") :=
  ((providerGroup_RegisterChangeCallback_fanout "g"
    [NewStaticProvider tableX1, refusingBackend, NewStaticProvider tableX2] "x" ⟨0⟩).2 1
    (by decide) "remote: registration refused" rfl
    (by
      intro j hj hji
      have hj0 : j = 0 := by omega
      subst hj0
      rfl)).1

theorem Unregister_providerGroup (name : String) (providers : List ConfigurationProvider)
    (token : String) :
    (ConfigurationProvider.providerGroup name providers).UnregisterChangeCallback token =
      (Event.unregister (ConfigurationProvider.providerGroup name providers) token ::
          (providerGroup.UnregisterChangeCallback.loop providers token).1,
        (providerGroup.UnregisterChangeCallback.loop providers token).2) := by
  rw [ConfigurationProvider.UnregisterChangeCallback]

theorem unregisterLoop_nil (token : String) :
    providerGroup.UnregisterChangeCallback.loop [] token = ([], none) := by
  rw [providerGroup.UnregisterChangeCallback.loop]

theorem unregisterLoop_cons_ok (m : ConfigurationProvider) (rest : List ConfigurationProvider)
    (token : String)
    (h : (m.UnregisterChangeCallback token).2 = none) :
    providerGroup.UnregisterChangeCallback.loop (m :: rest) token =
      ((m.UnregisterChangeCallback token).1 ++
          (providerGroup.UnregisterChangeCallback.loop rest token).1,
        (providerGroup.UnregisterChangeCallback.loop rest token).2) := by
  rw [providerGroup.UnregisterChangeCallback.loop]
  simp only [h]

theorem unregisterLoop_cons_err (m : ConfigurationProvider) (rest : List ConfigurationProvider)
    (token : String) (err : String)
    (h : (m.UnregisterChangeCallback token).2 = some err) :
    providerGroup.UnregisterChangeCallback.loop (m :: rest) token =
      ((m.UnregisterChangeCallback token).1, some err) := by
  rw [providerGroup.UnregisterChangeCallback.loop]
  simp only [h]

theorem unregisterCalls_cons (m : ConfigurationProvider) (rest : List ConfigurationProvider)
    (token : String) :
    unregisterCalls (m :: rest) token =
      (m.UnregisterChangeCallback token).1 ++ unregisterCalls rest token := rfl

theorem unregisterLoop_all_ok (members : List ConfigurationProvider) (token : String)
    (h : ∀ m ∈ members, (m.UnregisterChangeCallback token).2 = none) :
    providerGroup.UnregisterChangeCallback.loop members token =
      (unregisterCalls members token, none) := by
  induction members with
  | nil => exact unregisterLoop_nil token
  | cons m rest ih =>
    have hm := h m (List.mem_cons_self m rest)
    have hrest := ih (fun q hq => h q (List.mem_cons_of_mem m hq))
    rw [unregisterLoop_cons_ok m rest token hm, hrest, unregisterCalls_cons]

theorem unregisterLoop_first_err (before : List ConfigurationProvider) (m : ConfigurationProvider)
    (after : List ConfigurationProvider) (token : String)
    (err : String)
    (hbefore : ∀ q ∈ before, (q.UnregisterChangeCallback token).2 = none)
    (hm : (m.UnregisterChangeCallback token).2 = some err) :
    providerGroup.UnregisterChangeCallback.loop (before ++ m :: after) token =
      (unregisterCalls (before ++ [m]) token, some err) := by
  induction before with
  | nil =>
    rw [List.nil_append, List.nil_append, unregisterLoop_cons_err m after token err hm,
      unregisterCalls_cons]
    simp [unregisterCalls]
  | cons q qs ih =>
    have hq := hbefore q (List.mem_cons_self q qs)
    have hqs := ih (fun r hr => hbefore r (List.mem_cons_of_mem q hr))
    rw [List.cons_append, List.cons_append, unregisterLoop_cons_ok q _ token hq, hqs,
      unregisterCalls_cons]

theorem unregisterLoop_none_iff (members : List ConfigurationProvider) (token : String) :
    (providerGroup.UnregisterChangeCallback.loop members token).2 = none ↔
      ∀ m ∈ members, (m.UnregisterChangeCallback token).2 = none := by
  induction members with
  | nil =>
    rw [unregisterLoop_nil]
    simp
  | cons m rest ih =>
    cases hm : (m.UnregisterChangeCallback token).2 with
    | none =>
      rw [unregisterLoop_cons_ok m rest token hm]
      constructor
      · intro h q hq
        rcases List.mem_cons.mp hq with rfl | hq
        · exact hm
        · exact ih.mp h q hq
      · intro h
        exact ih.mpr (fun q hq => h q (List.mem_cons_of_mem m hq))
    | some err =>
      rw [unregisterLoop_cons_err m rest token err hm]
      constructor
      · intro h
        cases h
      · intro h
        have := h m (List.mem_cons_self m rest)
        rw [hm] at this
        cases this

/-- C12: `UnregisterChangeCallback` of a group follows the same fan-out as the
registration. The members are called in index order with the same token. The
group returns `nil` exactly when every member returns `nil`, and then each
member was called once, in order. When member `i` is the first to fail, the
group returns the error of that member unchanged, the calls made are those of
the members `0` to `i` in order, with nothing done to make up for the members
already unregistered, and the members after `i` are not called: any members
after `i` give the same result. -/
theorem providerGroup_UnregisterChangeCallback_fanout (name : String)
    (members : List ConfigurationProvider) (token : String) :
    (((ConfigurationProvider.providerGroup name members).UnregisterChangeCallback token).2 =
          none ↔
        ∀ m ∈ members, (m.UnregisterChangeCallback token).2 = none) ∧
      ((∀ m ∈ members, (m.UnregisterChangeCallback token).2 = none) →
        ((ConfigurationProvider.providerGroup name members).UnregisterChangeCallback token).1 =
          Event.unregister (ConfigurationProvider.providerGroup name members) token ::
            unregisterCalls members token) ∧
      ∀ (i : Nat) (hi : i < members.length) (err : String),
        ((members.get ⟨i, hi⟩).UnregisterChangeCallback token).2 = some err →
        (∀ (j : Nat) (hj : j < members.length), j < i →
          ((members.get ⟨j, hj⟩).UnregisterChangeCallback token).2 = none) →
        (ConfigurationProvider.providerGroup name members).UnregisterChangeCallback token =
            (Event.unregister (ConfigurationProvider.providerGroup name members) token ::
              unregisterCalls (members.take (i + 1)) token, some err) ∧
          ∀ later : List ConfigurationProvider,
            ((ConfigurationProvider.providerGroup name
                (members.take (i + 1) ++ later)).UnregisterChangeCallback token).2 =
                some err ∧
              ((ConfigurationProvider.providerGroup name
                (members.take (i + 1) ++ later)).UnregisterChangeCallback token).1.tail =
                unregisterCalls (members.take (i + 1)) token := by
  refine ⟨?_, ?_, ?_⟩
  · rw [Unregister_providerGroup]
    exact unregisterLoop_none_iff members token
  · intro hall
    rw [Unregister_providerGroup, unregisterLoop_all_ok members token hall]
  · intro i hi err herr hfirst
    have hbefore := take_all_none members
      (fun m => (m.UnregisterChangeCallback token).2) i hfirst
    have hloop : ∀ later : List ConfigurationProvider,
        providerGroup.UnregisterChangeCallback.loop (members.take (i + 1) ++ later) token =
          (unregisterCalls (members.take (i + 1)) token, some err) := by
      intro later
      rw [take_succ_eq members i hi, List.append_assoc, List.singleton_append]
      exact unregisterLoop_first_err _ _ later token err hbefore herr
    refine ⟨?_, ?_⟩
    · have h := hloop (members.drop (i + 1))
      rw [List.take_append_drop] at h
      rw [Unregister_providerGroup, h]
    · intro later
      rw [Unregister_providerGroup, hloop later]
      exact ⟨rfl, rfl⟩

/-- Witness of C12: a group of a static provider, a backend that does not know the
token, and another static provider. The first member is called, the error of
the second is returned, and the third is never called. -/
theorem providerGroup_UnregisterChangeCallback_fanout_witness :
    (ConfigurationProvider.providerGroup "g"
        [NewStaticProvider tableX1, refusingBackend,
          NewStaticProvider tableX2]).UnregisterChangeCallback "t1" =
      ([Event.unregister (ConfigurationProvider.providerGroup "g"
            [NewStaticProvider tableX1, refusingBackend, NewStaticProvider tableX2]) "t1",
          Event.unregister (NewStaticProvider tableX1) "t1",
          Event.unregister refusingBackend "t1"],
        some "remote: unknown token") :=
  ((providerGroup_UnregisterChangeCallback_fanout "g"
    [NewStaticProvider tableX1, refusingBackend, NewStaticProvider tableX2] "t1").2.2 1
    (by decide) "remote: unknown token" rfl
    (by
      intro j hj hji
      have hj0 : j = 0 := by omega
      subst hj0
      rfl)).1


/-! ## Change callbacks of static providers -/

theorem Register_staticProvider (d : GoMap) (key : String)
    (callback : ConfigurationChangeCallback) :
    ((NewStaticProvider d).RegisterChangeCallback key callback).2 = none := by
  unfold NewStaticProvider
  rw [ConfigurationProvider.RegisterChangeCallback]
  rfl

theorem Unregister_staticProvider (d : GoMap) (token : String) :
    ((NewStaticProvider d).UnregisterChangeCallback token).2 = none := by
  unfold NewStaticProvider
  rw [ConfigurationProvider.UnregisterChangeCallback]
  rfl

/-- C15: static providers have no change notifications. For every static provider,
key, callback and token, `RegisterChangeCallback` and `UnregisterChangeCallback`
return `nil` and leave the table of the provider as it was; hence both return
`nil` on every group whose members are all static providers, also on the one
built by `NewProviderGroup`. -/
theorem staticProvider_callbacks_succeed (d : GoMap) (key token : String)
    (callback : ConfigurationChangeCallback) (name : String) (tables : List GoMap) :
    staticProvider.RegisterChangeCallback d key callback = (d, none) ∧
      staticProvider.UnregisterChangeCallback d token = (d, none) ∧
      ((NewStaticProvider d).RegisterChangeCallback key callback).2 = none ∧
      ((NewStaticProvider d).UnregisterChangeCallback token).2 = none ∧
      ((ConfigurationProvider.providerGroup name
          (tables.map NewStaticProvider)).RegisterChangeCallback key callback).2 = none ∧
      ((ConfigurationProvider.providerGroup name
          (tables.map NewStaticProvider)).UnregisterChangeCallback token).2 = none ∧
      ((NewProviderGroup name (tables.map NewStaticProvider)).RegisterChangeCallback key
          callback).2 = none ∧
      ((NewProviderGroup name (tables.map NewStaticProvider)).UnregisterChangeCallback
          token).2 = none := by
  have hreg : ∀ ms : List GoMap, ∀ m ∈ ms.map NewStaticProvider,
      (m.RegisterChangeCallback key callback).2 = none := by
    intro ms m hm
    obtain ⟨t, _, rfl⟩ := List.mem_map.mp hm
    exact Register_staticProvider t key callback
  have hunreg : ∀ ms : List GoMap, ∀ m ∈ ms.map NewStaticProvider,
      (m.UnregisterChangeCallback token).2 = none := by
    intro ms m hm
    obtain ⟨t, _, rfl⟩ := List.mem_map.mp hm
    exact Unregister_staticProvider t token
  have hgroup : NewProviderGroup name (tables.map NewStaticProvider) =
      ConfigurationProvider.providerGroup name (tables.reverse.map NewStaticProvider) := by
    unfold NewProviderGroup
    rw [foldl_prepend, List.append_nil, List.map_reverse]
  refine ⟨rfl, rfl, Register_staticProvider d key callback, Unregister_staticProvider d token,
    ?_, ?_, ?_, ?_⟩
  · rw [Register_providerGroup, registerLoop_all_ok _ key callback (hreg tables)]
  · rw [Unregister_providerGroup, unregisterLoop_all_ok _ token (hunreg tables)]
  · rw [hgroup, Register_providerGroup,
      registerLoop_all_ok _ key callback (hreg tables.reverse)]
  · rw [hgroup, Unregister_providerGroup, unregisterLoop_all_ok _ token (hunreg tables.reverse)]

/-! ## Dots in scopes and keys -/

theorem append_dot_ne_empty (a b : String) : a ++ "." ++ b ≠ "" := by
  intro h
  have hlen := congrArg String.length h
  rw [String.length_append, String.length_append] at hlen
  have hdot : ".".length = 1 := rfl
  have hempty : "".length = 0 := rfl
  omega

/-- C13: dot ambiguity of scoping. For a static provider `S`, non-empty `a` and `b`
and a key `k`, `S.Scope(a ++ "." ++ b).GetValue(k)` is `S.Scope(a).GetValue(b ++
"." ++ k)`: both resolve the key `a.b.k` on `S`. So the scope `"a.b"` with the
key `"c.d"` and the scope `"a"` with the key `"b.c.d"` return the same value,
the one of `"a.b.c.d"`. -/
theorem scope_dot_ambiguity (N : String → ConfigurationProvider → ConfigurationProvider)
    (d : GoMap) (a b k : String) (ha : a ≠ "") (_hb : b ≠ "") :
    ((NewStaticProvider d).Scope N (a ++ "." ++ b)).GetValue k =
        ((NewStaticProvider d).Scope N a).GetValue (b ++ "." ++ k) ∧
      ((NewStaticProvider d).Scope N (a ++ "." ++ b)).GetValue k =
        (NewStaticProvider d).GetValue (a ++ "." ++ b ++ "." ++ k) ∧
      ((NewStaticProvider d).Scope N "a.b").GetValue "c.d" =
        ((NewStaticProvider d).Scope N "a").GetValue "b.c.d" ∧
      ((NewStaticProvider d).Scope N "a.b").GetValue "c.d" =
        (NewStaticProvider d).GetValue "a.b.c.d" := by
  have h1 := (scopedStaticProvider_GetValue_rewrite_aux N d (a ++ "." ++ b) k
    (append_dot_ne_empty a b))
  have h2 := scopedStaticProvider_GetValue_rewrite_aux N d a (b ++ "." ++ k) ha
  have hassoc : a ++ "." ++ b ++ "." ++ k = a ++ "." ++ (b ++ "." ++ k) := by
    simp [String.append_assoc]
  refine ⟨?_, h1, ?_, ?_⟩
  · rw [h1, h2, hassoc]
  · rw [scopedStaticProvider_GetValue_rewrite_aux N d "a.b" "c.d" (by decide),
      scopedStaticProvider_GetValue_rewrite_aux N d "a" "b.c.d" (by decide)]
    rfl
  · rw [scopedStaticProvider_GetValue_rewrite_aux N d "a.b" "c.d" (by decide)]
    rfl

/-- Witness of C13: over the table with `"a.b.k": 1`, the scope `"a.b"` with the key
`"k"` and the scope `"a"` with the key `"b.k"` give the same value. -/
theorem scope_dot_ambiguity_witness :
    ((NewStaticProvider tableScoped).Scope (fun _ q => q) ("a" ++ "." ++ "b")).GetValue "k" =
      ((NewStaticProvider tableScoped).Scope (fun _ q => q) "a").GetValue ("b" ++ "." ++ "k") :=
  (scope_dot_ambiguity (fun _ q => q) tableScoped "a" "b" "k" (by decide) (by decide)).1


/-! ## Misses, layering and incremental construction -/

/-- C17: the miss result of a group does not depend on its members. When no
member has an accepted result for the key, the group returns exactly the value
`NewConfigurationValue(G, K, nil, false, GetValueType(nil), nil)`, with root
`G`, key `K`, `nil` payload and `found = false`; nothing of a member's default
or not-found result is in it. Two groups of the same name that both miss
answer with the same key, payload, flags and type, each with itself as root. -/
theorem providerGroup_miss_independent (name : String)
    (members others : List ConfigurationProvider) (key : String)
    (hmembers : ∀ q ∈ members, (q.GetValue key).accepted = false)
    (hothers : ∀ q ∈ others, (q.GetValue key).accepted = false) :
    (ConfigurationProvider.providerGroup name members).GetValue key =
        NewConfigurationValue (ConfigurationProvider.providerGroup name members) key Value.nil
          false (GetValueType Value.nil) none ∧
      (∀ root : ConfigurationProvider,
        { (ConfigurationProvider.providerGroup name members).GetValue key with root := root } =
          { (ConfigurationProvider.providerGroup name others).GetValue key with
            root := root }) ∧
      ((ConfigurationProvider.providerGroup name members).GetValue key).key =
        ((ConfigurationProvider.providerGroup name others).GetValue key).key ∧
      ((ConfigurationProvider.providerGroup name members).GetValue key).value =
        ((ConfigurationProvider.providerGroup name others).GetValue key).value ∧
      ((ConfigurationProvider.providerGroup name members).GetValue key).found =
        ((ConfigurationProvider.providerGroup name others).GetValue key).found ∧
      ((ConfigurationProvider.providerGroup name members).GetValue key).isDefault =
        ((ConfigurationProvider.providerGroup name others).GetValue key).isDefault ∧
      ((ConfigurationProvider.providerGroup name members).GetValue key).valueType =
        ((ConfigurationProvider.providerGroup name others).GetValue key).valueType ∧
      ((ConfigurationProvider.providerGroup name members).GetValue key).root =
        ConfigurationProvider.providerGroup name members ∧
      ((ConfigurationProvider.providerGroup name others).GetValue key).root =
        ConfigurationProvider.providerGroup name others := by
  have h1 := GetValue_group_miss name members key hmembers
  have h2 := GetValue_group_miss name others key hothers
  refine ⟨h1, ?_, ?_, ?_, ?_, ?_, ?_, ?_, ?_⟩
  · intro root
    rw [h1, h2]
    rfl
  · rw [h1, h2]
    rfl
  · rw [h1, h2]
    rfl
  · rw [h1, h2]
    rfl
  · rw [h1, h2]
    rfl
  · rw [h1, h2]
    rfl
  · rw [h1]
    rfl
  · rw [h2]
    rfl

/-- Witness of C17: the group whose member has a default with payload 0 for `"x"`
and the group whose member refuses and has nothing answer `"x"` with the same
payload, `nil`. -/
theorem providerGroup_miss_independent_witness :
    ((ConfigurationProvider.providerGroup "g" [defaultsBackend]).GetValue "x").value =
      ((ConfigurationProvider.providerGroup "g" [refusingBackend]).GetValue "x").value :=
  (providerGroup_miss_independent "g" [defaultsBackend] [refusingBackend] "x"
    (by
      intro q hq
      rw [List.mem_singleton] at hq
      subst hq
      rfl)
    (by
      intro q hq
      rw [List.mem_singleton] at hq
      subst hq
      rfl)).2.2.2.1

theorem loop_root_irrelevant (members : List ConfigurationProvider) (key : String)
    (cv1 cv2 : CV) (root : ConfigurationProvider)
    (h : ({ cv1 with root := root } : CV) = { cv2 with root := root }) :
    ({ providerGroup.GetValue.loop members key cv1 with root := root } : CV) =
      { providerGroup.GetValue.loop members key cv2 with root := root } := by
  induction members with
  | nil =>
    rw [loop_nil, loop_nil]
    exact h
  | cons q qs ih =>
    rw [loop_cons, loop_cons]
    by_cases hq : (q.GetValue key).accepted = true
    · rw [if_pos hq, if_pos hq]
    · rw [if_neg hq, if_neg hq]
      exact ih

/-- C18: layering law of `WithProvider`. With `G2 = G.WithProvider(p)`: when
`p.GetValue(K)` is accepted, `G2.GetValue(K)` is `p.GetValue(K)` with the root
set to `G2`, whatever the members of `G` are; otherwise `G2.GetValue(K)` is
`G.GetValue(K)` in every field except the root, which is `G2`. -/
theorem WithProvider_layering (name : String) (members : List ConfigurationProvider)
    (p : ConfigurationProvider) (K : String) :
    ((p.GetValue K).accepted = true →
        (providerGroup.WithProvider name members p).GetValue K =
            { p.GetValue K with root := providerGroup.WithProvider name members p } ∧
          ∀ others : List ConfigurationProvider,
            (providerGroup.WithProvider name others p).GetValue K =
              { p.GetValue K with root := providerGroup.WithProvider name others p }) ∧
      ((p.GetValue K).accepted = false →
        (providerGroup.WithProvider name members p).GetValue K =
          { (ConfigurationProvider.providerGroup name members).GetValue K with
            root := providerGroup.WithProvider name members p }) ∧
      ((providerGroup.WithProvider name members p).GetValue K).root =
        providerGroup.WithProvider name members p := by
  have hhit : (p.GetValue K).accepted = true → ∀ ms : List ConfigurationProvider,
      (providerGroup.WithProvider name ms p).GetValue K =
        { p.GetValue K with root := providerGroup.WithProvider name ms p } := by
    intro hacc ms
    exact GetValue_group_first name [] p ms K (fun q hq => absurd hq (List.not_mem_nil q)) hacc
  refine ⟨fun hacc => ⟨hhit hacc members, hhit hacc⟩, ?_, ?_⟩
  · intro hacc
    unfold providerGroup.WithProvider
    rw [GetValue_providerGroup, GetValue_providerGroup, List.singleton_append, loop_cons,
      if_neg (by rw [hacc]; exact Bool.false_ne_true)]
    exact loop_root_irrelevant members K _ _ _ rfl
  · unfold providerGroup.WithProvider
    rw [GetValue_providerGroup]

/-- Witness of C18: putting a backend that has only a default for `"x"` in front
of the group of the static provider with `"x": 7` leaves the answer to `"x"` as
it was, with the new group as root; putting the static provider with `"x": 2`
in front makes that provider answer. -/
theorem WithProvider_layering_witness :
    (providerGroup.WithProvider "g" [NewStaticProvider tableX7] defaultsBackend).GetValue "x" =
        { (ConfigurationProvider.providerGroup "g" [NewStaticProvider tableX7]).GetValue "x" with
          root := providerGroup.WithProvider "g" [NewStaticProvider tableX7] defaultsBackend } ∧
      (providerGroup.WithProvider "g" [NewStaticProvider tableX7]
          (NewStaticProvider tableX2)).GetValue "x" =
        { (NewStaticProvider tableX2).GetValue "x" with
          root := providerGroup.WithProvider "g" [NewStaticProvider tableX7]
            (NewStaticProvider tableX2) } :=
  ⟨(WithProvider_layering "g" [NewStaticProvider tableX7] defaultsBackend "x").2.1 rfl,
    ((WithProvider_layering "g" [NewStaticProvider tableX7] (NewStaticProvider tableX2)
      "x").1 rfl).1⟩

theorem foldl_WithProvider (name : String) (args members : List ConfigurationProvider) :
    args.foldl
        (fun group provider => providerGroup.WithProvider group.Name group.members provider)
        (ConfigurationProvider.providerGroup name members) =
      ConfigurationProvider.providerGroup name (args.reverse ++ members) := by
  induction args generalizing members with
  | nil => rfl
  | cons a rest ih =>
    rw [List.foldl_cons]
    have hstep : providerGroup.WithProvider
        (ConfigurationProvider.providerGroup name members).Name
        (ConfigurationProvider.providerGroup name members).members a =
          ConfigurationProvider.providerGroup name (a :: members) := rfl
    rw [hstep, ih, List.reverse_cons, List.append_assoc]
    rfl

/-- C19: construction equals incremental extension. `NewProviderGroup(name, p1, ...,
pn)` is the same group as `NewProviderGroup(name).WithProvider(p1). ...
.WithProvider(pn)`: the same name, the same member list, and so the same
`GetValue` result for every key. -/
theorem NewProviderGroup_eq_withProviders (name : String) (args : List ConfigurationProvider) :
    NewProviderGroup name args = withProviders name args ∧
      (NewProviderGroup name args).Name = (withProviders name args).Name ∧
      (NewProviderGroup name args).members = (withProviders name args).members ∧
      (withProviders name args).members = args.reverse ∧
      (∀ K : String, (NewProviderGroup name args).GetValue K =
        (withProviders name args).GetValue K) ∧
      ∀ (p : ConfigurationProvider),
        NewProviderGroup name (args ++ [p]) =
          providerGroup.WithProvider (NewProviderGroup name args).Name
            (NewProviderGroup name args).members p := by
  have hnew : ∀ xs : List ConfigurationProvider,
      NewProviderGroup name xs = ConfigurationProvider.providerGroup name xs.reverse := by
    intro xs
    unfold NewProviderGroup
    rw [foldl_prepend, List.append_nil]
  have hfold : withProviders name args =
      ConfigurationProvider.providerGroup name args.reverse := by
    unfold withProviders
    rw [hnew [], List.reverse_nil, foldl_WithProvider, List.append_nil]
  have heq : NewProviderGroup name args = withProviders name args := by
    rw [hnew args, hfold]
  refine ⟨heq, ?_, ?_, ?_, ?_, ?_⟩
  · rw [heq]
  · rw [heq]
  · rw [hfold]
    rfl
  · intro K
    rw [heq]
  · intro p
    rw [hnew (args ++ [p]), hnew args, List.reverse_append]
    rfl


/-! ## The empty key on a group of static providers -/

theorem staticProvider_GetValue_empty (d : GoMap) :
    (NewStaticProvider d).GetValue "" =
      NewConfigurationValue (ConfigurationProvider.staticProvider d) "" (Value.map d) true
        (GetValueType (Value.map d)) none := by
  unfold NewStaticProvider
  rw [GetValue_staticProvider]
  rfl

/-- C20: the empty key on a group of static providers does not merge tables. Given
that a value constructed with `found = true` is accepted, for a non-empty list
of tables `d1, ..., dn` the group built by `NewProviderGroup` from their static
providers answers the empty key with `found = true` and the payload `dn`, the
whole table of the last argument alone, also when `dn` is empty: a key that is
not in `dn` is not in the payload, whatever the other tables hold. -/
theorem NewProviderGroup_static_empty_key (name : String) (tables : List GoMap)
    (hne : tables ≠ [])
    (hacc : ∀ (provider : ConfigurationProvider) (key : String) (value : Value)
      (t : ValueType) (ts : Option Nat),
      (NewConfigurationValue provider key value true t ts).accepted = true) :
    ((NewProviderGroup name (tables.map NewStaticProvider)).GetValue "").found = true ∧
      ((NewProviderGroup name (tables.map NewStaticProvider)).GetValue "").value =
        Value.map (tables.getLast hne) ∧
      ∀ (payload : GoMap) (k : String),
        ((NewProviderGroup name (tables.map NewStaticProvider)).GetValue "").value =
          Value.map payload →
        k ∉ (tables.getLast hne).keys → payload.index k = (Value.nil, false) := by
  have hgroup : NewProviderGroup name (tables.map NewStaticProvider) =
      ConfigurationProvider.providerGroup name
        (NewStaticProvider (tables.getLast hne) ::
          (tables.dropLast.map NewStaticProvider).reverse) := by
    unfold NewProviderGroup
    rw [foldl_prepend, List.append_nil]
    conv_lhs => rw [← List.dropLast_append_getLast hne]
    rw [List.map_append, List.reverse_append]
    rfl
  have hlast : ((NewStaticProvider (tables.getLast hne)).GetValue "").accepted = true := by
    rw [staticProvider_GetValue_empty]
    exact hacc _ _ _ _ _
  have hval : (NewProviderGroup name (tables.map NewStaticProvider)).GetValue "" =
      { (NewStaticProvider (tables.getLast hne)).GetValue "" with
        root := NewProviderGroup name (tables.map NewStaticProvider) } := by
    rw [hgroup]
    exact GetValue_group_first name [] _ _ ""
      (fun q hq => absurd hq (List.not_mem_nil q)) hlast
  have hpayload : ((NewProviderGroup name (tables.map NewStaticProvider)).GetValue "").value =
      Value.map (tables.getLast hne) := by
    rw [hval, staticProvider_GetValue_empty]
    rfl
  refine ⟨?_, hpayload, ?_⟩
  · rw [hval, staticProvider_GetValue_empty]
    rfl
  · intro payload k hp hk
    rw [hpayload] at hp
    have heq : tables.getLast hne = payload := Value.map.inj hp
    rw [← heq]
    exact index_of_not_mem_keys _ k hk

/-- Witness of C20: with `d1` holding `"x": 1` and `d2` empty, the group answers
the empty key with the empty table, and `"x"` is not in the payload. -/
theorem NewProviderGroup_static_empty_key_witness :
    ((NewProviderGroup "g" ([tableX1, tableEmpty].map NewStaticProvider)).GetValue "").found =
        true ∧
      ((NewProviderGroup "g" ([tableX1, tableEmpty].map NewStaticProvider)).GetValue "").value =
        Value.map tableEmpty :=
  ⟨(NewProviderGroup_static_empty_key "g" [tableX1, tableEmpty] (by simp)
      (fun _ _ _ _ _ => rfl)).1,
    (NewProviderGroup_static_empty_key "g" [tableX1, tableEmpty] (by simp)
      (fun _ _ _ _ _ => rfl)).2.1⟩


/-! ## Service options -/

/-- Counterexample to C14: applied to a `Host` of another dynamic type, here
`mockHost`, each of the four options panics at its type assertion; none
returns an error. -/
theorem options_panic_on_foreign_host :
    WithConfiguration none (Host.other "mockHost") = Outcome.panicked (Host.other "mockHost") ∧
      WithLogger none (Host.other "mockHost") = Outcome.panicked (Host.other "mockHost") ∧
      WithMetricsRootScope none (Host.other "mockHost") =
        Outcome.panicked (Host.other "mockHost") ∧
      WithObserver none (Host.other "mockHost") = Outcome.panicked (Host.other "mockHost") ∧
      ¬ ∃ (svc : Host) (err : String),
        WithConfiguration none (Host.other "mockHost") = Outcome.returned svc (some err) := by
  refine ⟨rfl, rfl, rfl, rfl, ?_⟩
  rintro ⟨svc, err, h⟩
  cases h

/-- C14, amended: each service option (`WithConfiguration`, `WithLogger`,
`WithMetricsRootScope`, `WithObserver`), applied to a host of the service's own
type, assigns its argument to the field of the host (`WithObserver` to both
observer fields), changes no other field, and returns `nil`. Applied to a
`Host` of another dynamic type, or to the `nil` pointer, it panics and the host
is as before. No option ever returns an error that is not `nil`. -/
theorem options_apply_or_panic (h : host) (config : Option ConfigurationProvider)
    (log : Option Log) (scope : Option RootScope) (observer : Option Observer)
    (typeName : String) :
    (WithConfiguration config (Host.own h) =
        Outcome.returned (Host.own { h with configProvider := config }) none ∧
      WithLogger log (Host.own h) = Outcome.returned (Host.own { h with log := log }) none ∧
      WithMetricsRootScope scope (Host.own h) =
        Outcome.returned (Host.own { h with scope := scope }) none ∧
      WithObserver observer (Host.own h) =
        Outcome.returned
          (Host.own { h with
            observer := observer, serviceCore := { h.serviceCore with observer := observer } })
          none) ∧
      (WithConfiguration config (Host.other typeName) = Outcome.panicked (Host.other typeName) ∧
        WithLogger log (Host.other typeName) = Outcome.panicked (Host.other typeName) ∧
        WithMetricsRootScope scope (Host.other typeName) =
          Outcome.panicked (Host.other typeName) ∧
        WithObserver observer (Host.other typeName) =
          Outcome.panicked (Host.other typeName)) ∧
      (WithConfiguration config Host.ownNil = Outcome.panicked Host.ownNil ∧
        WithLogger log Host.ownNil = Outcome.panicked Host.ownNil ∧
        WithMetricsRootScope scope Host.ownNil = Outcome.panicked Host.ownNil ∧
        WithObserver observer Host.ownNil = Outcome.panicked Host.ownNil) ∧
      ∀ (svc after : Host) (err : String),
        WithConfiguration config svc ≠ Outcome.returned after (some err) ∧
          WithLogger log svc ≠ Outcome.returned after (some err) ∧
          WithMetricsRootScope scope svc ≠ Outcome.returned after (some err) ∧
          WithObserver observer svc ≠ Outcome.returned after (some err) := by
  refine ⟨⟨rfl, rfl, rfl, rfl⟩, ⟨rfl, rfl, rfl, rfl⟩, ⟨rfl, rfl, rfl, rfl⟩, ?_⟩
  intro svc after err
  cases svc with
  | own svc2 =>
    refine ⟨?_, ?_, ?_, ?_⟩ <;>
    · intro hret
      simp [WithConfiguration, WithLogger, WithMetricsRootScope, WithObserver] at hret
  | ownNil =>
    refine ⟨?_, ?_, ?_, ?_⟩ <;>
    · intro hret
      simp [WithConfiguration, WithLogger, WithMetricsRootScope, WithObserver] at hret
  | other t =>
    refine ⟨?_, ?_, ?_, ?_⟩ <;>
    · intro hret
      simp [WithConfiguration, WithLogger, WithMetricsRootScope, WithObserver] at hret

end Fx
